import Mathlib

/-!
Verification development for the facturx-fr repository.

Shallow embedding of the core domain logic:
* `src/facturx_fr/models/enums.py` — status vocabulary and role/regime enums;
* `src/facturx_fr/lifecycle/manager.py` — transition graph, status metadata,
  the `LifecycleManager` state machine;
* `src/facturx_fr/lifecycle/cdar.py` — CDAR message model, XML generator and
  XML parser (the XML tree is modelled as an inductive element tree; the
  `lxml` byte serialisation/deserialisation round trip is modelled by
  `wireNormalize`, which erases empty text nodes exactly as
  `tostring` / `fromstring` do);
* `src/facturx_fr/ereporting/reporter.py` and
  `src/facturx_fr/ereporting/models.py` — the e-reporting reporter
  (validation, aggregation, deadlines).

Python `Decimal` values are modelled as `Rat` (exact arithmetic, exact
comparison, as for `Decimal`); dates as explicit year/month/day records with
the Gregorian month lengths of `calendar.monthrange`.
-/

namespace FacturX

/-! ## Status vocabulary — `models/enums.py` -/

/-- Invoice lifecycle statuses (`InvoiceStatus` in `models/enums.py`).
The enum has 5 mandatory + 10 recommended members. -/
inductive InvoiceStatus
  | DEPOSEE
  | REJETEE_EMISSION
  | REFUSEE
  | REJETEE_RECEPTION
  | ENCAISSEE
  | EMISE
  | RECUE
  | MISE_A_DISPOSITION
  | PRISE_EN_CHARGE
  | APPROUVEE
  | PARTIELLEMENT_APPROUVEE
  | EN_LITIGE
  | SUSPENDUE
  | PAIEMENT_TRANSMIS
  | COMPLETEE
deriving DecidableEq, Repr, Fintype

/-- Wire code of each status (the `StrEnum` string values). -/
def InvoiceStatus.value : InvoiceStatus → String
  | .DEPOSEE => "200"
  | .REJETEE_EMISSION => "209"
  | .REFUSEE => "210"
  | .REJETEE_RECEPTION => "212"
  | .ENCAISSEE => "213"
  | .EMISE => "201"
  | .RECUE => "202"
  | .MISE_A_DISPOSITION => "203"
  | .PRISE_EN_CHARGE => "204"
  | .APPROUVEE => "205"
  | .PARTIELLEMENT_APPROUVEE => "206"
  | .EN_LITIGE => "207"
  | .SUSPENDUE => "208"
  | .PAIEMENT_TRANSMIS => "211"
  | .COMPLETEE => "214"

/-- Members of the `InvoiceStatus` enum in declaration order. -/
def InvoiceStatus.all : List InvoiceStatus :=
  [.DEPOSEE, .REJETEE_EMISSION, .REFUSEE, .REJETEE_RECEPTION, .ENCAISSEE,
   .EMISE, .RECUE, .MISE_A_DISPOSITION, .PRISE_EN_CHARGE, .APPROUVEE,
   .PARTIELLEMENT_APPROUVEE, .EN_LITIGE, .SUSPENDUE, .PAIEMENT_TRANSMIS,
   .COMPLETEE]

/-- Inverse of `InvoiceStatus.value` — models the `InvoiceStatus(text)`
constructor call, which raises on an unknown code. -/
def InvoiceStatus.fromCode (s : String) : Option InvoiceStatus :=
  InvoiceStatus.all.find? (fun st => st.value = s)

theorem InvoiceStatus.mem_all (s : InvoiceStatus) : s ∈ InvoiceStatus.all := by
  cases s <;> decide

/-- Status category (`StatusCategory` in `models/enums.py`). -/
inductive StatusCategory
  | MANDATORY
  | RECOMMENDED
deriving DecidableEq, Repr

/-- CDAR party role codes (`CDARRoleCode` in `models/enums.py`). -/
inductive CDARRoleCode
  | BUYER
  | SELLER
  | FACTOR
  | PLATFORM
  | PPF
deriving DecidableEq, Repr, Fintype

/-- Wire code of each CDAR role. -/
def CDARRoleCode.value : CDARRoleCode → String
  | .BUYER => "BY"
  | .SELLER => "SE"
  | .FACTOR => "DL"
  | .PLATFORM => "WK"
  | .PPF => "DFH"

/-- Members of the `CDARRoleCode` enum in declaration order. -/
def CDARRoleCode.all : List CDARRoleCode :=
  [.BUYER, .SELLER, .FACTOR, .PLATFORM, .PPF]

/-- Inverse of `CDARRoleCode.value` — models the `CDARRoleCode(text)` call. -/
def CDARRoleCode.fromCode (s : String) : Option CDARRoleCode :=
  CDARRoleCode.all.find? (fun r => r.value = s)

/-- VAT regimes (`VATRegime` in `models/enums.py`). -/
inductive VATRegime
  | REAL_NORMAL_MONTHLY
  | REAL_NORMAL_QUARTERLY
  | SIMPLIFIED_REAL
  | FRANCHISE
deriving DecidableEq, Repr

/-- E-reporting transaction types (`EReportingTransactionType`). -/
inductive EReportingTransactionType
  | B2C_DOMESTIC
  | B2B_INTRA_EU
  | B2B_EXTRA_EU
deriving DecidableEq, Repr

/-- Operation categories (`OperationCategory`). -/
inductive OperationCategory
  | DELIVERY
  | SERVICE
  | MIXED
deriving DecidableEq, Repr

/-! ## Transition graph and status metadata — `lifecycle/manager.py` -/

/-- The `TRANSITIONS` dict, as an association list in insertion order. -/
def TRANSITIONS : List (InvoiceStatus × List InvoiceStatus) :=
  [(.DEPOSEE, [.EMISE, .REJETEE_EMISSION]),
   (.EMISE, [.RECUE, .REJETEE_RECEPTION]),
   (.RECUE, [.MISE_A_DISPOSITION, .REJETEE_RECEPTION]),
   (.MISE_A_DISPOSITION, [.PRISE_EN_CHARGE, .REJETEE_RECEPTION]),
   (.PRISE_EN_CHARGE,
     [.APPROUVEE, .PARTIELLEMENT_APPROUVEE, .REFUSEE, .EN_LITIGE, .SUSPENDUE]),
   (.APPROUVEE, [.PAIEMENT_TRANSMIS, .ENCAISSEE]),
   (.PARTIELLEMENT_APPROUVEE, [.PAIEMENT_TRANSMIS, .REFUSEE, .EN_LITIGE]),
   (.EN_LITIGE, [.APPROUVEE, .REFUSEE, .SUSPENDUE]),
   (.SUSPENDUE, [.COMPLETEE]),
   (.COMPLETEE, [.PRISE_EN_CHARGE]),
   (.PAIEMENT_TRANSMIS, [.ENCAISSEE]),
   (.REJETEE_EMISSION, []),
   (.REJETEE_RECEPTION, []),
   (.REFUSEE, []),
   (.ENCAISSEE, [])]

/-- Models `TRANSITIONS.get(status, [])`. -/
def transitionsGet (s : InvoiceStatus) : List InvoiceStatus :=
  ((TRANSITIONS.find? (fun p => decide (p.1 = s))).map Prod.snd).getD []

/-- Status metadata record (`StatusInfo` named tuple). -/
structure StatusInfo where
  category : StatusCategory
  default_producer : CDARRoleCode
  reason_required : Bool := false
deriving DecidableEq, Repr

/-- The `STATUS_METADATA` dict, as an association list in insertion order. -/
def STATUS_METADATA : List (InvoiceStatus × StatusInfo) :=
  [(.DEPOSEE, { category := .MANDATORY, default_producer := .PLATFORM }),
   (.REJETEE_EMISSION, { category := .MANDATORY, default_producer := .PLATFORM }),
   (.REFUSEE,
     { category := .MANDATORY, default_producer := .BUYER, reason_required := true }),
   (.REJETEE_RECEPTION, { category := .MANDATORY, default_producer := .PLATFORM }),
   (.ENCAISSEE, { category := .MANDATORY, default_producer := .SELLER }),
   (.EMISE, { category := .RECOMMENDED, default_producer := .PLATFORM }),
   (.RECUE, { category := .RECOMMENDED, default_producer := .PLATFORM }),
   (.MISE_A_DISPOSITION, { category := .RECOMMENDED, default_producer := .PLATFORM }),
   (.PRISE_EN_CHARGE, { category := .RECOMMENDED, default_producer := .BUYER }),
   (.APPROUVEE, { category := .RECOMMENDED, default_producer := .BUYER }),
   (.PARTIELLEMENT_APPROUVEE, { category := .RECOMMENDED, default_producer := .BUYER }),
   (.EN_LITIGE, { category := .RECOMMENDED, default_producer := .BUYER }),
   (.SUSPENDUE, { category := .RECOMMENDED, default_producer := .BUYER }),
   (.PAIEMENT_TRANSMIS, { category := .RECOMMENDED, default_producer := .BUYER }),
   (.COMPLETEE, { category := .RECOMMENDED, default_producer := .SELLER })]

/-- Models `STATUS_METADATA.get(status)`. -/
def statusMetadataGet (s : InvoiceStatus) : Option StatusInfo :=
  (STATUS_METADATA.find? (fun p => decide (p.1 = s))).map Prod.snd

/-- Models `TERMINAL_STATUSES` — the statuses with an empty target list. -/
def TERMINAL_STATUSES : List InvoiceStatus :=
  (TRANSITIONS.filter (fun p => p.2.isEmpty)).map Prod.fst

/-! ## Lifecycle manager — `lifecycle/manager.py` -/

/-- Lifecycle event (`LifecycleEvent` in `pdp/models.py`). Timestamps are
opaque instants (the manager never inspects them); amounts are exact
decimals modelled as `Rat`. -/
structure LifecycleEvent where
  timestamp : Nat
  status : InvoiceStatus
  reason : Option String := none
  reason_code : Option String := none
  producer : Option CDARRoleCode := none
  amount : Option Rat := none
  cdar_message_id : Option String := none
deriving DecidableEq, Repr

/-- Mutable state of a `LifecycleManager` instance. -/
structure LifecycleManager where
  invoice_reference : String
  status : InvoiceStatus
  history : List LifecycleEvent
deriving DecidableEq, Repr

/-- Models `LifecycleManager.__init__`. -/
def LifecycleManager.init (invoice_reference : String)
    (initial_status : InvoiceStatus := .DEPOSEE) : LifecycleManager :=
  { invoice_reference := invoice_reference, status := initial_status,
    history := [] }

/-- Models `LifecycleManager.can_transition`. -/
def LifecycleManager.can_transition (m : LifecycleManager)
    (target : InvoiceStatus) : Bool :=
  decide (target ∈ transitionsGet m.status)

/-- Keyword arguments of `LifecycleManager.transition`. -/
structure TransitionArgs where
  reason : Option String := none
  reason_code : Option String := none
  producer : Option CDARRoleCode := none
  amount : Option Rat := none
  timestamp : Option Nat := none
deriving DecidableEq, Repr

/-- Models the Python truthiness test `not reason` for `reason: str | None`:
both `None` and the empty string count as missing. -/
def reasonMissing : Option String → Bool
  | none => true
  | some s => decide (s = "")

/-- Error raised by `LifecycleManager.transition` (`ValueError` in the
source, here split by its two raise sites). -/
inductive TransitionError
  | invalidTransition (current target : InvoiceStatus)
      (allowed : List InvoiceStatus)
  | missingReason (target : InvoiceStatus)
deriving DecidableEq, Repr

/-- Models `LifecycleManager.transition`. The method is embedded as a
state-passing function: the second component is the state of the manager
object after the call (in the source the two `raise` statements occur
before any field assignment, so on error the state is returned unchanged).
The wall clock read by `datetime.now(UTC)` is passed in as `now`. -/
def LifecycleManager.transition (m : LifecycleManager)
    (target : InvoiceStatus) (args : TransitionArgs) (now : Nat) :
    Except TransitionError LifecycleEvent × LifecycleManager :=
  if ¬ m.can_transition target then
    (.error (.invalidTransition m.status target (transitionsGet m.status)), m)
  else
    let metadata := statusMetadataGet target
    if (match metadata with
        | some md => md.reason_required && reasonMissing args.reason
        | none => false) then
      (.error (.missingReason target), m)
    else
      let producer : Option CDARRoleCode :=
        match args.producer, metadata with
        | none, some md => some md.default_producer
        | p, _ => p
      let ts := args.timestamp.getD now
      let event : LifecycleEvent :=
        { timestamp := ts, status := target, reason := args.reason,
          reason_code := args.reason_code, producer := producer,
          amount := args.amount }
      (.ok event,
       { m with status := target, history := m.history ++ [event] })

/-- Models `LifecycleManager.is_terminal`. -/
def LifecycleManager.is_terminal (m : LifecycleManager) : Bool :=
  decide (m.status ∈ TERMINAL_STATUSES)

/-- Models `LifecycleManager.is_mandatory`. -/
def LifecycleManager.is_mandatory (s : InvoiceStatus) : Bool :=
  match statusMetadataGet s with
  | some md => decide (md.category = .MANDATORY)
  | none => false

/-- Models `LifecycleManager.mandatory_events`. -/
def LifecycleManager.mandatory_events (m : LifecycleManager) :
    List LifecycleEvent :=
  m.history.filter (fun e => LifecycleManager.is_mandatory e.status)

/-- One call to `LifecycleManager.transition`: target, keyword arguments and
the wall-clock instant observed during the call. -/
structure TransitionCall where
  target : InvoiceStatus
  args : TransitionArgs := {}
  now : Nat := 0
deriving DecidableEq, Repr

/-- Runs a sequence of `transition` calls against a manager, returning the
final state together with the number of accepted (non-raising) calls. -/
def runTransitions (m : LifecycleManager) :
    List TransitionCall → LifecycleManager × Nat
  | [] => (m, 0)
  | c :: cs =>
    let r := m.transition c.target c.args c.now
    let rest := runTransitions r.2 cs
    (rest.1, (match r.1 with | .ok _ => 1 | .error _ => 0) + rest.2)

/-! ## Dates — model of `datetime.date` and `calendar.monthrange` -/

/-- Calendar date (`datetime.date`). -/
structure Date where
  year : Nat
  month : Nat
  day : Nat
deriving DecidableEq, Repr

/-- Gregorian leap-year test, as used by `calendar.monthrange`. -/
def isLeapYear (y : Nat) : Bool :=
  (y % 4 == 0 && y % 100 != 0) || y % 400 == 0

/-- Number of days in a month (`calendar.monthrange(year, month)[1]`). -/
def monthLength (y m : Nat) : Nat :=
  if m = 2 then (if isLeapYear y then 29 else 28)
  else if m = 4 ∨ m = 6 ∨ m = 9 ∨ m = 11 then 30
  else 31

/-- Python `date` comparison `a < b` (lexicographic on year, month, day). -/
def Date.ltB (a b : Date) : Bool :=
  decide (a.year < b.year) ||
    (decide (a.year = b.year) &&
      (decide (a.month < b.month) ||
        (decide (a.month = b.month) && decide (a.day < b.day))))

/-- Python `date` comparison `a <= b`. -/
def Date.leB (a b : Date) : Bool :=
  Date.ltB a b || decide (a = b)

/-- Validity of a `datetime.date` value: month in range and day within the
month (`datetime` enforces this at construction). -/
def Date.valid (d : Date) : Prop :=
  1 ≤ d.month ∧ d.month ≤ 12 ∧ 1 ≤ d.day ∧ d.day ≤ monthLength d.year d.month

instance (d : Date) : Decidable d.valid := by
  unfold Date.valid; infer_instance

/-! ## E-reporting — `ereporting/models.py` and `ereporting/reporter.py` -/

/-- Transaction record (`TransactionData` in `ereporting/models.py`),
restricted to the fields the reporter reads. Decimal amounts and rates are
`Rat`; optional fields are `Option`. -/
structure TransactionData where
  seller_siren : String
  transaction_type : EReportingTransactionType
  invoice_date : Option Date := none
  period_start : Option Date := none
  operation_category : OperationCategory
  total_excl_tax : Rat
  vat_amount : Rat := 0
  vat_rate : Option Rat := none
  vat_exemption : Bool := false
  vat_on_debits : Bool := false
  country_code : Option String := none
  currency : String := "EUR"
deriving DecidableEq, Repr

/-- VAT breakdown line (`TaxBreakdown` in `ereporting/models.py`). -/
structure TaxBreakdown where
  vat_rate : Option Rat := none
  vat_exemption : Bool := false
  taxable_amount : Rat
  vat_amount : Rat
deriving DecidableEq, Repr

/-- Aggregated transaction data (`AggregatedTransactionData`). -/
structure AggregatedTransactionData where
  seller_siren : String
  period_start : Date
  period_end : Date
  operation_category : OperationCategory
  tax_breakdowns : List TaxBreakdown
  vat_on_debits : Bool := false
deriving DecidableEq, Repr

/-- The `total_excl_tax` computed field of `AggregatedTransactionData`. -/
def AggregatedTransactionData.total_excl_tax
    (a : AggregatedTransactionData) : Rat :=
  (a.tax_breakdowns.map (fun tb => tb.taxable_amount)).sum

/-- The `total_vat` computed field of `AggregatedTransactionData`. -/
def AggregatedTransactionData.total_vat
    (a : AggregatedTransactionData) : Rat :=
  (a.tax_breakdowns.map (fun tb => tb.vat_amount)).sum

/-- Errors raised by the reporter (`EReportingEmptyDeclarationError` and
`EReportingValidationError` in `ereporting/errors.py`). -/
inductive EReportingError
  | emptyDeclaration (msg : String)
  | validation (msg : String)
deriving DecidableEq, Repr

/-- The empty-declaration message, identical at both raise sites of the
source (`validate_aggregated` and `aggregate_transactions`). -/
def emptyDeclarationMsg : String :=
  "Déclaration vide interdite depuis les simplifications " ++
    "DGFiP septembre 2025 : pas d\x27opérations = pas de transmission"

/-- The `EReporter` object: seller SIREN and VAT regime held as identity
and configuration (the SIREN-shape check of `__init__` is not needed by the
operations modelled here). -/
structure EReporter where
  seller_siren : String
  vat_regime : VATRegime
deriving DecidableEq, Repr

/-- Models `EReporter.validate_aggregated`. The SIREN-mismatch check
appends to the returned error list; the all-zero check raises
(`Except.error`) an empty-declaration error, discarding the list. -/
def EReporter.validate_aggregated (r : EReporter)
    (aggregated : AggregatedTransactionData) :
    Except EReportingError (List String) :=
  let errors : List String :=
    if aggregated.seller_siren ≠ r.seller_siren then
      ["SIREN de l\x27agrégat (" ++ aggregated.seller_siren ++
        ") ne correspond pas au SIREN du reporter (" ++ r.seller_siren ++ ")"]
    else []
  if aggregated.total_excl_tax = 0 ∧ aggregated.total_vat = 0 then
    .error (.emptyDeclaration emptyDeclarationMsg)
  else
    .ok errors

/-- Key of the `breakdowns` grouping dict in `aggregate_transactions`:
`(txn.vat_rate, txn.vat_exemption)`. -/
def txnKey (t : TransactionData) : Option Rat × Bool :=
  (t.vat_rate, t.vat_exemption)

/-- Insert-or-accumulate into the `breakdowns` dict, modelled as an
association list in insertion order (Python dicts preserve insertion
order). -/
def updBreakdowns (acc : List ((Option Rat × Bool) × (Rat × Rat)))
    (k : Option Rat × Bool) (taxable vat : Rat) :
    List ((Option Rat × Bool) × (Rat × Rat)) :=
  match acc with
  | [] => [(k, (taxable, vat))]
  | e :: rest =>
    if e.1 = k then (e.1, (e.2.1 + taxable, e.2.2 + vat)) :: rest
    else e :: updBreakdowns rest k taxable vat

/-- The grouping loop of `aggregate_transactions`: left fold of
`updBreakdowns` over the transaction list, starting from the empty dict. -/
def groupBreakdowns (l : List TransactionData) :
    List ((Option Rat × Bool) × (Rat × Rat)) :=
  l.foldl
    (fun acc txn =>
      updBreakdowns acc (txnKey txn) txn.total_excl_tax txn.vat_amount) []

/-- Association-list lookup into the grouping dict (used only to state
properties of `groupBreakdowns`). -/
def lookupBk (acc : List ((Option Rat × Bool) × (Rat × Rat)))
    (k : Option Rat × Bool) : Option (Rat × Rat) :=
  (acc.find? (fun e => decide (e.1 = k))).map Prod.snd

/-- Sort key of the breakdown groups:
`(x[0][0] or Decimal("-1"), x[0][1])`. Python `or` replaces every falsy
value — both `None` and a zero `Decimal` — by `Decimal("-1")`. -/
def rateKey : Option Rat → Rat
  | none => -1
  | some r => if r = 0 then -1 else r

/-- The `sorted` comparison on grouping-dict entries: lexicographic on the
sort key, with `False < True` on the exemption flag. -/
def bkLe (a b : (Option Rat × Bool) × (Rat × Rat)) : Bool :=
  decide (rateKey a.1.1 < rateKey b.1.1) ||
    (decide (rateKey a.1.1 = rateKey b.1.1) && (!a.1.2 || b.1.2))

/-- Stable insertion into a sorted list: the new element goes after every
element `y` with `le y x`. -/
def insertSorted (le : α → α → Bool) (x : α) : List α → List α
  | [] => [x]
  | y :: ys => if le y x then y :: insertSorted le x ys else x :: y :: ys

/-- Stable sort by repeated insertion, processing the input left to right.
Models Python `sorted`, which is specified to be stable: for a total
preorder the output of any stable sort is the same list. -/
def stableSort (le : α → α → Bool) (l : List α) : List α :=
  l.foldl (fun acc x => insertSorted le x acc) []

/-- The `TaxBreakdown(...)` construction in the list comprehension of
`aggregate_transactions`, from one entry of the grouping dict. -/
def mkBreakdown (e : (Option Rat × Bool) × (Rat × Rat)) : TaxBreakdown :=
  { vat_rate := e.1.1, vat_exemption := e.1.2, taxable_amount := e.2.1,
    vat_amount := e.2.2 }

/-- Models `EReporter.aggregate_transactions`. Empty input and mixed-SIREN
input raise; otherwise the transactions are grouped by
`(vat_rate, vat_exemption)` with per-group sums, sorted, and wrapped into
an `AggregatedTransactionData` whose category, SIREN and vat-on-debits flag
come from the first transaction. -/
def EReporter.aggregate_transactions (_r : EReporter)
    (transactions : List TransactionData) (period_start period_end : Date) :
    Except EReportingError AggregatedTransactionData :=
  match transactions with
  | [] => .error (.emptyDeclaration emptyDeclarationMsg)
  | t0 :: _ =>
    let sirens := (transactions.map (fun t => t.seller_siren)).dedup
    if sirens.length > 1 then
      .error (.validation
        ("Toutes les transactions doivent avoir le même SIREN vendeur, " ++
          "trouvés : " ++ String.intercalate ", " sirens.mergeSort))
    else
      let breakdowns := groupBreakdowns transactions
      let tax_breakdowns := (stableSort bkLe breakdowns).map mkBreakdown
      .ok { seller_siren := t0.seller_siren, period_start := period_start,
            period_end := period_end,
            operation_category := t0.operation_category,
            tax_breakdowns := tax_breakdowns,
            vat_on_debits := t0.vat_on_debits }

/-- Models `EReporter._next_decadal_deadline`: candidate dates in the
current month. -/
def decadalCandidates (d : Date) : List Date :=
  [⟨d.year, d.month, 10⟩, ⟨d.year, d.month, 20⟩,
   ⟨d.year, d.month, monthLength d.year d.month⟩]

/-- Models `EReporter._next_decadal_deadline`: first candidate strictly
after the reference date, else the 10th of the following month. -/
def nextDecadalDeadline (d : Date) : Date :=
  match (decadalCandidates d).find? (fun c => Date.ltB d c) with
  | some c => c
  | none =>
    if d.month = 12 then ⟨d.year + 1, 1, 10⟩ else ⟨d.year, d.month + 1, 10⟩

/-- Models `EReporter._last_day_of_next_month`. -/
def lastDayOfNextMonth (d : Date) : Date :=
  if d.month = 12 then ⟨d.year + 1, 1, monthLength (d.year + 1) 1⟩
  else ⟨d.year, d.month + 1, monthLength d.year (d.month + 1)⟩

/-- Models `EReporter.next_transaction_deadline`. -/
def EReporter.next_transaction_deadline (r : EReporter)
    (reference_date : Date) : Date :=
  if r.vat_regime = .REAL_NORMAL_MONTHLY ∨
      r.vat_regime = .REAL_NORMAL_QUARTERLY then
    nextDecadalDeadline reference_date
  else
    lastDayOfNextMonth reference_date

/-! ## CDAR messages — `lifecycle/cdar.py`

The XML document is modelled as an element tree. Tags carry their
namespace prefix (`rsm:`, `ram:`, `udt:`); the prefix map of the source is
fixed and bijective, so prefixed names model qualified names faithfully.
The `lxml` byte round trip (`tostring` then `fromstring`) is modelled by
`wireNormalize`: the only observation the parser can make that the byte
round trip changes is that an empty text node reads back as `None`.
Python `Decimal` amounts appear in this codec only through `str(...)` and
`Decimal(...)`, which are exact inverses on the canonical textual form, so
an amount is modelled by that textual form. -/

/-- XML element: tag, attributes, text content, child elements. -/
inductive Xml where
  | elem (tag : String) (attrs : List (String × String))
      (text : Option String) (children : List Xml)
deriving Repr

/-- Tag of an element. -/
def Xml.tag : Xml → String
  | .elem t _ _ _ => t

/-- Attributes of an element. -/
def Xml.attrs : Xml → List (String × String)
  | .elem _ a _ _ => a

/-- Text content of an element (`None` models absent text). -/
def Xml.text : Xml → Option String
  | .elem _ _ t _ => t

/-- Child elements. -/
def Xml.children : Xml → List Xml
  | .elem _ _ _ c => c

/-- Models `Element.find(tag, ns)`: first direct child with the tag. -/
def Xml.findChild (x : Xml) (t : String) : Option Xml :=
  x.children.find? (fun c => c.tag = t)

/-- Models `Element.findall(tag, ns)`: all direct children with the tag. -/
def Xml.findAll (x : Xml) (t : String) : List Xml :=
  x.children.filter (fun c => c.tag = t)

/-- Models `Element.get(name, default)` on attributes. -/
def Xml.getAttr (x : Xml) (name dflt : String) : String :=
  ((x.attrs.find? (fun p => p.1 = name)).map Prod.snd).getD dflt

/-- Text normalisation performed by the byte round trip: serialising an
element whose text is the empty string and re-parsing yields `None`. -/
def normText : Option String → Option String
  | some s => if s = "" then none else some s
  | none => none

/-- Fuel-indexed tree normalisation; the fuel only bounds the recursion
depth (structural recursion on the fuel keeps the function reducible). -/
def wnAux : Nat → Xml → Xml
  | 0, x => x
  | n + 1, .elem t a text children =>
    .elem t a (normText text) (children.map (wnAux n))

/-- Models `tostring` followed by `fromstring` (the wire round trip). Every
tree the CDAR generator produces has depth at most 4, so fuel 8 normalises
it completely. -/
def wireNormalize (x : Xml) : Xml := wnAux 8 x

/-- Guideline URN (`CDAR_GUIDELINE_ID`). -/
def CDAR_GUIDELINE_ID : String := "urn:factur-x.eu:1p0:cdar"

/-- Fixed document type code (`CDAR_TYPE_CODE`). -/
def CDAR_TYPE_CODE : String := "YC2"

/-- Party of a CDAR message (`CDARParty` pydantic model). -/
structure CDARParty where
  identifier : String
  scheme_id : String
  role_code : CDARRoleCode
deriving DecidableEq, Repr

/-- CDAR message (`CDARMessage` pydantic model). The issue datetime is
kept to the precision the codec serialises (`%Y%m%d`, format 102); the
amount is the textual form of the `Decimal`. -/
structure CDARMessage where
  message_id : String
  issue_datetime : Date
  status_code : InvoiceStatus
  invoice_reference : String
  sender : CDARParty
  recipients : List CDARParty
  reason : Option String := none
  reason_code : Option String := none
  amount : Option String := none
deriving DecidableEq, Repr

/-- Python truthiness of a `str | None` value (`if message.reason:`). -/
def pyTruthy : Option String → Bool
  | none => false
  | some s => decide (s ≠ "")

/-- Two-digit zero-padded `strftime` field (`%m` and `%d` always pad to
two digits). -/
def pad2 (n : Nat) : String :=
  ⟨[Nat.digitChar (n / 10 % 10), Nat.digitChar (n % 10)]⟩

/-- Models the platform `strftime("%Y")` used by CPython on glibc: the
decimal year WITHOUT zero padding — a year below 1000 is emitted with
fewer than four digits (for example year 999 prints as "999", so
`strftime("%Y%m%d")` yields a seven-character string). `datetime` years
are between 1 and 9999, so four digits suffice in the last branch. -/
def formatYear (y : Nat) : String :=
  if y < 10 then ⟨[Nat.digitChar (y % 10)]⟩
  else if y < 100 then
    ⟨[Nat.digitChar (y / 10 % 10), Nat.digitChar (y % 10)]⟩
  else if y < 1000 then
    ⟨[Nat.digitChar (y / 100 % 10), Nat.digitChar (y / 10 % 10),
      Nat.digitChar (y % 10)]⟩
  else
    ⟨[Nat.digitChar (y / 1000 % 10), Nat.digitChar (y / 100 % 10),
      Nat.digitChar (y / 10 % 10), Nat.digitChar (y % 10)]⟩

/-- Models `issue_datetime.strftime("%Y%m%d")` (unpadded year, two-digit
month and day). -/
def formatDate102 (d : Date) : String :=
  formatYear d.year ++ pad2 d.month ++ pad2 d.day

/-- Numeric value of a decimal digit character. -/
def digitVal (c : Char) : Nat := c.toNat - 48

/-- Models `datetime.strptime(text, "%Y%m%d")` on eight-character digit
strings — the only shape generated for years 1000–9999: the greedy
`strptime` pattern then reads four year digits, two month digits and two
day digits, and the components must form a constructible `datetime`
(year at least 1, month 1–12, day within the month). For the shorter
strings produced by years below 1000 the real `strptime` misreads the
digit boundaries and raises or returns a garbled date; the model maps
them to failure, and no theorem below relies on that case. -/
def parseDate102 (s : String) : Option Date :=
  match s.data with
  | [y1, y2, y3, y4, m1, m2, d1, d2] =>
    if y1.isDigit && y2.isDigit && y3.isDigit && y4.isDigit &&
        m1.isDigit && m2.isDigit && d1.isDigit && d2.isDigit then
      let y := 1000 * digitVal y1 + 100 * digitVal y2 + 10 * digitVal y3 +
        digitVal y4
      let mo := 10 * digitVal m1 + digitVal m2
      let da := 10 * digitVal d1 + digitVal d2
      if 1 ≤ y ∧ 1 ≤ mo ∧ mo ≤ 12 ∧ 1 ≤ da ∧ da ≤ monthLength y mo then
        some ⟨y, mo, da⟩
      else none
    else none
  | _ => none

/-- Models `CDARGenerator._build_context`. -/
def buildContext : Xml :=
  .elem "rsm:ExchangedDocumentContext" [] none
    [.elem "ram:GuidelineSpecifiedDocumentContextParameter" [] none
      [.elem "ram:ID" [] (some CDAR_GUIDELINE_ID) []]]

/-- Models `CDARGenerator._build_party`. -/
def buildParty (t : String) (p : CDARParty) : Xml :=
  .elem t [] none
    [.elem "ram:ID" [("schemeID", p.scheme_id)] (some p.identifier) [],
     .elem "ram:RoleCode" [] (some p.role_code.value) []]

/-- Models `CDARGenerator._build_exchanged_document`. -/
def buildExchangedDocument (m : CDARMessage) : Xml :=
  .elem "rsm:ExchangedDocument" [] none
    ([.elem "ram:ID" [] (some m.message_id) [],
      .elem "ram:TypeCode" [] (some CDAR_TYPE_CODE) [],
      .elem "ram:StatusCode" [] (some m.status_code.value) [],
      .elem "ram:IssueDateTime" [] none
        [.elem "udt:DateTimeString" [("format", "102")]
          (some (formatDate102 m.issue_datetime)) []],
      buildParty "ram:SenderTradeParty" m.sender] ++
      m.recipients.map (buildParty "ram:RecipientTradeParty"))

/-- Models `CDARGenerator._build_acknowledgement_document`; the optional
elements are emitted under the same conditions as the source
(`if message.reason:` and `if message.reason_code:` are truthiness tests,
`if message.amount is not None:` is a None test). -/
def buildAcknowledgementDocument (m : CDARMessage) : Xml :=
  .elem "rsm:AcknowledgementDocument" [] none
    ([.elem "ram:StatusCode" [] (some m.status_code.value) []] ++
      (if pyTruthy m.reason then
        [.elem "ram:ReasonInformation" [] m.reason []] else []) ++
      (if pyTruthy m.reason_code then
        [.elem "ram:ReasonCode" [] m.reason_code []] else []) ++
      (match m.amount with
       | some a => [.elem "ram:SpecifiedAmount" [] (some a) []]
       | none => []) ++
      [.elem "ram:ReferenceReferencedDocument" [] none
        [.elem "ram:IssuerAssignedID" [] (some m.invoice_reference) []]])

/-- Models `CDARGenerator.generate_xml` up to byte serialisation: the
element tree written to the wire. -/
def CDARGenerator.generate_xml (m : CDARMessage) : Xml :=
  .elem "rsm:CrossDomainAcknowledgementAndResponse" [] none
    [buildContext, buildExchangedDocument m, buildAcknowledgementDocument m]

/-- Models `CDARParser._get_text`: mandatory element with non-empty text
(`if elem is None or not elem.text:` — both `None` and `""` fail). -/
def getText (parent : Xml) (path : String) : Except String String :=
  match parent.findChild path with
  | none => .error ("Élément obligatoire manquant : " ++ path)
  | some e =>
    match e.text with
    | none => .error ("Élément obligatoire manquant : " ++ path)
    | some t =>
      if t = "" then .error ("Élément obligatoire manquant : " ++ path)
      else .ok t

/-- Models `CDARParser._get_text_optional`. -/
def getTextOptional (parent : Xml) (path : String) : Option String :=
  (parent.findChild path).bind (fun e => e.text)

/-- Models `CDARParser._parse_party`. -/
def parseParty (e : Xml) : Except String CDARParty :=
  match e.findChild "ram:ID" with
  | none => .error "Élément ID manquant dans TradeParty."
  | some idElem => do
    let roleText ← getText e "ram:RoleCode"
    match CDARRoleCode.fromCode roleText with
    | some rc =>
      .ok { identifier := (idElem.text).getD "",
            scheme_id := idElem.getAttr "schemeID" "",
            role_code := rc }
    | none => .error ("code de rôle CDAR inconnu : " ++ roleText)

/-- Models `CDARParser.parse` on the parsed element tree. -/
def CDARParser.parse (root : Xml) : Except String CDARMessage := do
  match root.findChild "rsm:ExchangedDocument" with
  | none => .error "Élément ExchangedDocument manquant dans le XML CDAR."
  | some doc => do
    let message_id ← getText doc "ram:ID"
    let statusText ← getText doc "ram:StatusCode"
    let status_code ← match InvoiceStatus.fromCode statusText with
      | some st => Except.ok st
      | none => .error ("statut de cycle de vie inconnu : " ++ statusText)
    let issue_datetime ←
      match (doc.findChild "ram:IssueDateTime").bind
          (fun e => e.findChild "udt:DateTimeString") with
      | none => .error "Élément IssueDateTime manquant dans le XML CDAR."
      | some dtElem =>
        match dtElem.text with
        | none =>
          .error "strptime : argument invalide pour le format %Y%m%d"
        | some t =>
          match parseDate102 t with
          | some d => Except.ok d
          | none =>
            .error "strptime : argument invalide pour le format %Y%m%d"
    let sender ← match doc.findChild "ram:SenderTradeParty" with
      | none => .error "Élément SenderTradeParty manquant dans le XML CDAR."
      | some se => parseParty se
    let recipients ←
      (doc.findAll "ram:RecipientTradeParty").mapM parseParty
    match root.findChild "rsm:AcknowledgementDocument" with
    | none =>
      .error "Élément AcknowledgementDocument manquant dans le XML CDAR."
    | some ack => do
      let reason := getTextOptional ack "ram:ReasonInformation"
      let reason_code := getTextOptional ack "ram:ReasonCode"
      let amount_text := getTextOptional ack "ram:SpecifiedAmount"
      let amount := match amount_text with
        | some t => if t = "" then none else some t
        | none => none
      match ack.findChild "ram:ReferenceReferencedDocument" with
      | none =>
        .error "Élément ReferenceReferencedDocument manquant dans le XML CDAR."
      | some refDoc => do
        let invoice_reference ← getText refDoc "ram:IssuerAssignedID"
        .ok { message_id := message_id, issue_datetime := issue_datetime,
              status_code := status_code,
              invoice_reference := invoice_reference, sender := sender,
              recipients := recipients, reason := reason,
              reason_code := reason_code, amount := amount }

/-- Full wire round trip: generate the tree, push it through the byte
serialisation model, parse it back. -/
def cdarRoundtrip (m : CDARMessage) : Except String CDARMessage :=
  CDARParser.parse (wireNormalize (CDARGenerator.generate_xml m))

/-! ## Specification-level definitions used by the theorem statements -/

/-- Grouping key of a produced breakdown line. -/
def tbKey (tb : TaxBreakdown) : Option Rat × Bool :=
  (tb.vat_rate, tb.vat_exemption)

/-- The sort order of `aggregate_transactions`, read off a produced
breakdown line: ascending in `rateKey` (which maps both a missing rate and
a zero rate to `-1`), ties broken by the exemption flag. -/
def tbLe (a b : TaxBreakdown) : Bool :=
  decide (rateKey a.vat_rate < rateKey b.vat_rate) ||
    (decide (rateKey a.vat_rate = rateKey b.vat_rate) &&
      (!a.vat_exemption || b.vat_exemption))

/-- Sum of the taxable amounts of the transactions with a given grouping
key. -/
def sumTaxable (l : List TransactionData) (k : Option Rat × Bool) : Rat :=
  ((l.filter (fun t => decide (txnKey t = k))).map
    (fun t => t.total_excl_tax)).sum

/-- Sum of the VAT amounts of the transactions with a given grouping
key. -/
def sumVat (l : List TransactionData) (k : Option Rat × Bool) : Rat :=
  ((l.filter (fun t => decide (txnKey t = k))).map
    (fun t => t.vat_amount)).sum

/-- The 10th of the month following the month of `d` (January of the next
year when `d` is in December). -/
def tenthOfNextMonth (d : Date) : Date :=
  if d.month = 12 then ⟨d.year + 1, 1, 10⟩ else ⟨d.year, d.month + 1, 10⟩

/-- Specification of the decadal deadline rule, stated over the candidate
set {10th, 20th, last day of the month}: the result is the earliest
candidate strictly after the reference date when one exists, and the 10th
of the following month otherwise. -/
def earliestCandidateSpec (res d : Date) : Prop :=
  ((∃ c ∈ decadalCandidates d, Date.ltB d c = true) →
    res ∈ decadalCandidates d ∧ Date.ltB d res = true ∧
      ∀ c ∈ decadalCandidates d, Date.ltB d c = true →
        Date.leB res c = true) ∧
  ((∀ c ∈ decadalCandidates d, Date.ltB d c = false) →
    res = tenthOfNextMonth d)

/-! ## Concrete sample data for witnesses and counterexamples -/

/-- Sample reporter with a well-formed SIREN and a decadal regime. -/
def sampleReporter : EReporter :=
  { seller_siren := "123456789", vat_regime := .REAL_NORMAL_MONTHLY }

/-- Start of a sample declaration period. -/
def samplePeriodStart : Date := ⟨2026, 1, 1⟩

/-- End of a sample declaration period. -/
def samplePeriodEnd : Date := ⟨2026, 1, 31⟩

/-- Aggregate whose single breakdown line is identically zero. -/
def sampleZeroAgg : AggregatedTransactionData :=
  { seller_siren := "123456789", period_start := ⟨2026, 1, 1⟩,
    period_end := ⟨2026, 1, 31⟩, operation_category := .DELIVERY,
    tax_breakdowns :=
      [{ vat_rate := some 20, vat_exemption := false, taxable_amount := 0,
         vat_amount := 0 }] }

/-- Aggregate with a mismatched SIREN whose two nonzero breakdown lines
net out to zero totals. -/
def sampleNetZeroAgg : AggregatedTransactionData :=
  { seller_siren := "987654321", period_start := ⟨2026, 1, 1⟩,
    period_end := ⟨2026, 1, 31⟩, operation_category := .DELIVERY,
    tax_breakdowns :=
      [{ vat_rate := some 20, vat_exemption := false, taxable_amount := 100,
         vat_amount := 20 },
       { vat_rate := some 5, vat_exemption := false,
         taxable_amount := -100, vat_amount := -20 }] }

/-- Sample transaction: goods delivery, VAT on debits not opted. -/
def sampleTxnA : TransactionData :=
  { seller_siren := "123456789", transaction_type := .B2C_DOMESTIC,
    operation_category := .DELIVERY, total_excl_tax := 100,
    vat_amount := 20, vat_rate := some 20 }

/-- Sample transaction with the same SIREN but a different operation
category and the VAT-on-debits option set. -/
def sampleTxnB : TransactionData :=
  { seller_siren := "123456789", transaction_type := .B2C_DOMESTIC,
    operation_category := .SERVICE, total_excl_tax := 200,
    vat_amount := 40, vat_rate := some 20, vat_on_debits := true }

/-- Transaction carrying a zero VAT rate (a falsy `Decimal("0")`). -/
def txnZeroRate : TransactionData :=
  { seller_siren := "123456789", transaction_type := .B2C_DOMESTIC,
    operation_category := .DELIVERY, total_excl_tax := 100,
    vat_amount := 0, vat_rate := some 0 }

/-- Transaction carrying no VAT rate at all (exemption flagged). -/
def txnNoRate : TransactionData :=
  { seller_siren := "123456789", transaction_type := .B2C_DOMESTIC,
    operation_category := .DELIVERY, total_excl_tax := 50,
    vat_amount := 0, vat_rate := none, vat_exemption := true }

/-- CDAR message whose reason is the empty string — validly constructed
(`reason: str | None` admits `""`), used against the roundtrip claim. -/
def c4EmptyReasonMsg : CDARMessage :=
  { message_id := "CDAR-20261015-00042", issue_datetime := ⟨2026, 10, 15⟩,
    status_code := .DEPOSEE, invoice_reference := "FA-2026-0042",
    sender := { identifier := "123456789", scheme_id := "0002",
                role_code := .PLATFORM },
    recipients := [], reason := some "" }

/-- CDAR message with two recipients, reason, reason code and the amount
9500.00, exercising the full wire format. -/
def c4FullMsg : CDARMessage :=
  { message_id := "CDAR-20261015-00043", issue_datetime := ⟨2026, 10, 15⟩,
    status_code := .REFUSEE, invoice_reference := "FA-2026-0043",
    sender := { identifier := "123456789", scheme_id := "0002",
                role_code := .BUYER },
    recipients :=
      [{ identifier := "987654321", scheme_id := "0002",
         role_code := .SELLER },
       { identifier := "123456789", scheme_id := "0224",
         role_code := .PPF }],
    reason := some "montant erroné", reason_code := some "REF01",
    amount := some "9500.00" }

/-- Decidable equality on `Except`, used to evaluate results of the
embedded fallible operations on concrete inputs. -/
instance {ε α : Type} [DecidableEq ε] [DecidableEq α] :
    DecidableEq (Except ε α) := fun x y =>
  match x, y with
  | .ok a, .ok b =>
    if h : a = b then .isTrue (by rw [h]) else .isFalse (by simp [h])
  | .error a, .error b =>
    if h : a = b then .isTrue (by rw [h]) else .isFalse (by simp [h])
  | .ok _, .error _ => .isFalse (by simp)
  | .error _, .ok _ => .isFalse (by simp)

/-! ## Theorems: lifecycle graph and manager (claims C1, C2, C3, C8) -/

/-- C1, counterexample: the transition graph does not cover "exactly the
14 invoice statuses" — its key set is duplicate-free of size 15 (the enum
has 5 mandatory plus 10 recommended members), so the count 14 in the claim
is wrong. -/
theorem claim_C1_counterexample :
    (TRANSITIONS.map Prod.fst).Nodup ∧
    (TRANSITIONS.map Prod.fst).length = 15 ∧
    ¬ (TRANSITIONS.map Prod.fst).length = 14 := by decide

/-- C1, amended: the transition graph covers exactly the 15 invoice
statuses with exactly the edges of the table, every status is a key of
both the transition graph and the status-metadata table, and the set of
statuses with no outgoing edges is exactly {REJETEE_EMISSION,
REJETEE_RECEPTION, REFUSEE, ENCAISSEE}, of size 4. -/
theorem claim_C1_amended :
    (∀ s : InvoiceStatus, s ∈ TRANSITIONS.map Prod.fst) ∧
    (∀ s : InvoiceStatus, s ∈ STATUS_METADATA.map Prod.fst) ∧
    (TRANSITIONS.map Prod.fst).Nodup ∧
    (STATUS_METADATA.map Prod.fst).Nodup ∧
    TRANSITIONS.length = 15 ∧ STATUS_METADATA.length = 15 ∧
    transitionsGet .DEPOSEE = [.EMISE, .REJETEE_EMISSION] ∧
    transitionsGet .EMISE = [.RECUE, .REJETEE_RECEPTION] ∧
    transitionsGet .RECUE = [.MISE_A_DISPOSITION, .REJETEE_RECEPTION] ∧
    transitionsGet .MISE_A_DISPOSITION =
      [.PRISE_EN_CHARGE, .REJETEE_RECEPTION] ∧
    transitionsGet .PRISE_EN_CHARGE =
      [.APPROUVEE, .PARTIELLEMENT_APPROUVEE, .REFUSEE, .EN_LITIGE,
       .SUSPENDUE] ∧
    transitionsGet .APPROUVEE = [.PAIEMENT_TRANSMIS, .ENCAISSEE] ∧
    transitionsGet .PARTIELLEMENT_APPROUVEE =
      [.PAIEMENT_TRANSMIS, .REFUSEE, .EN_LITIGE] ∧
    transitionsGet .EN_LITIGE = [.APPROUVEE, .REFUSEE, .SUSPENDUE] ∧
    transitionsGet .SUSPENDUE = [.COMPLETEE] ∧
    transitionsGet .COMPLETEE = [.PRISE_EN_CHARGE] ∧
    transitionsGet .PAIEMENT_TRANSMIS = [.ENCAISSEE] ∧
    transitionsGet .REJETEE_EMISSION = [] ∧
    transitionsGet .REJETEE_RECEPTION = [] ∧
    transitionsGet .REFUSEE = [] ∧
    transitionsGet .ENCAISSEE = [] ∧
    TERMINAL_STATUSES =
      [.REJETEE_EMISSION, .REJETEE_RECEPTION, .REFUSEE, .ENCAISSEE] ∧
    TERMINAL_STATUSES.length = 4 := by decide

/-- C2: whenever `transition` fails — with an invalid-transition error or
a missing-reason error — the state of the manager after the call (second
component of the embedded method) is exactly the state before the call:
status and history are untouched, no event is appended. -/
theorem claim_C2 (m : LifecycleManager) (target : InvoiceStatus)
    (args : TransitionArgs) (now : Nat) (e : TransitionError)
    (h : (m.transition target args now).1 = .error e) :
    (m.transition target args now).2 = m := by
  by_cases h1 : m.can_transition target = true
  · by_cases h2 : (match statusMetadataGet target with
        | some md => md.reason_required && reasonMissing args.reason
        | none => false) = true
    · unfold LifecycleManager.transition
      rw [if_neg (not_not_intro h1), if_pos h2]
    · exfalso
      unfold LifecycleManager.transition at h
      rw [if_neg (not_not_intro h1), if_neg h2] at h
      simp at h
  · unfold LifecycleManager.transition
    rw [if_pos h1]

/-- Witness for C2 at a concrete input: a manager at DEPOSEE refusing the
illegal jump to ENCAISSEE is left unchanged. -/
theorem claim_C2_witness :
    ((LifecycleManager.init "FA-2026-001").transition .ENCAISSEE {} 0).2 =
      LifecycleManager.init "FA-2026-001" :=
  claim_C2 (LifecycleManager.init "FA-2026-001") .ENCAISSEE {} 0
    (.invalidTransition .DEPOSEE .ENCAISSEE [.EMISE, .REJETEE_EMISSION])
    (by decide)

/-- C3: from PRISE_EN_CHARGE, a transition to REFUSEE with no reason fails
with the missing-reason error; with a non-empty reason it succeeds, the
returned event carries that reason, and the status becomes REFUSEE. -/
theorem claim_C3 (ref : String) (hist : List LifecycleEvent) (r : String)
    (hr : r ≠ "") (now : Nat) :
    ((LifecycleManager.mk ref .PRISE_EN_CHARGE hist).transition .REFUSEE {}
        now).1 = .error (.missingReason .REFUSEE) ∧
    (∃ ev,
      ((LifecycleManager.mk ref .PRISE_EN_CHARGE hist).transition .REFUSEE
          { reason := some r } now).1 = .ok ev ∧ ev.reason = some r) ∧
    ((LifecycleManager.mk ref .PRISE_EN_CHARGE hist).transition .REFUSEE
        { reason := some r } now).2.status = .REFUSEE := by
  have hm : reasonMissing (some r) = false := by
    simp [reasonMissing, hr]
  have hcan : (LifecycleManager.mk ref .PRISE_EN_CHARGE hist).can_transition
      .REFUSEE = true := rfl
  have hmd : statusMetadataGet .REFUSEE =
      some { category := .MANDATORY, default_producer := .BUYER,
             reason_required := true } := rfl
  refine ⟨rfl, ?_, ?_⟩ <;>
    simp [LifecycleManager.transition, hcan, hmd, hm]

/-- Helper: a `transition` call either fails and leaves the state
unchanged, or succeeds with an event whose status is the target, appending
exactly that event, the target being reachable from the current status. -/
theorem transition_cases (m : LifecycleManager) (t : InvoiceStatus)
    (a : TransitionArgs) (n : Nat) :
    ((m.transition t a n).1.isOk = false ∧ (m.transition t a n).2 = m) ∨
    (∃ ev, (m.transition t a n).1 = .ok ev ∧ ev.status = t ∧
      (m.transition t a n).2.history = m.history ++ [ev] ∧
      m.can_transition t = true) := by
  by_cases h1 : m.can_transition t = true
  · by_cases h2 : (match statusMetadataGet t with
        | some md => md.reason_required && reasonMissing a.reason
        | none => false) = true
    · left
      unfold LifecycleManager.transition
      rw [if_neg (not_not_intro h1), if_pos h2]
      exact ⟨rfl, rfl⟩
    · right
      unfold LifecycleManager.transition
      rw [if_neg (not_not_intro h1), if_neg h2]
      exact ⟨_, rfl, rfl, rfl, h1⟩
  · left
    unfold LifecycleManager.transition
    rw [if_pos h1]
    exact ⟨rfl, rfl⟩

/-- Helper: DEPOSEE has no incoming edge — it is a target of no status. -/
theorem deposee_not_a_target :
    ∀ s : InvoiceStatus, InvoiceStatus.DEPOSEE ∉ transitionsGet s := by
  decide

/-- Helper: one-step unfolding of `runTransitions`. -/
theorem runTransitions_cons (m : LifecycleManager) (c : TransitionCall)
    (cs : List TransitionCall) :
    runTransitions m (c :: cs) =
      ((runTransitions (m.transition c.target c.args c.now).2 cs).1,
       (match (m.transition c.target c.args c.now).1 with
        | .ok _ => 1 | .error _ => 0) +
         (runTransitions (m.transition c.target c.args c.now).2 cs).2) :=
  rfl

/-- Helper invariant of `runTransitions`: the history grows by exactly the
number of accepted calls, and every new event avoids status DEPOSEE. -/
theorem runTransitions_invariant (calls : List TransitionCall) :
    ∀ m : LifecycleManager,
      (runTransitions m calls).1.history.length =
        m.history.length + (runTransitions m calls).2 ∧
      ∀ e ∈ (runTransitions m calls).1.history,
        e ∈ m.history ∨ e.status ≠ .DEPOSEE := by
  induction calls with
  | nil =>
    intro m
    exact ⟨rfl, fun e he => Or.inl he⟩
  | cons c cs ih =>
    intro m
    rw [runTransitions_cons]
    rcases transition_cases m c.target c.args c.now with
      ⟨hfail, hst⟩ | ⟨ev, hok, hstat, hhist, hcan⟩
    · have hk : (match (m.transition c.target c.args c.now).1 with
          | .ok _ => 1 | .error _ => 0) = 0 := by
        rcases hres : (m.transition c.target c.args c.now).1 with v | v
        · rfl
        · rw [hres] at hfail
          simp [Except.isOk, Except.toBool] at hfail
      rw [hst, hk]
      dsimp only
      constructor
      · have := (ih m).1
        omega
      · intro e he
        exact (ih m).2 e he
    · have hk : (match (m.transition c.target c.args c.now).1 with
          | .ok _ => 1 | .error _ => 0) = 1 := by rw [hok]
      rw [hk]
      dsimp only
      constructor
      · have h1 := (ih (m.transition c.target c.args c.now).2).1
        rw [hhist] at h1
        simp only [List.length_append, List.length_singleton] at h1
        omega
      · intro e he
        rcases (ih (m.transition c.target c.args c.now).2).2 e he with
          hmem | hne
        · rw [hhist] at hmem
          rcases List.mem_append.mp hmem with h | h
          · exact Or.inl h
          · right
            have hev : e = ev := List.mem_singleton.mp h
            subst hev
            have hmemT : c.target ∈ transitionsGet m.status := by
              simpa [LifecycleManager.can_transition] using hcan
            rw [hstat]
            intro hdep
            rw [hdep] at hmemT
            exact deposee_not_a_target m.status hmemT
        · exact Or.inr hne

/-- C8: a freshly constructed manager has an empty history whatever its
initial status; after any sequence of `transition` calls the history
length equals the number of accepted calls; and no event with status
DEPOSEE ever appears in the history or in `mandatory_events()`. -/
theorem claim_C8 (ref : String) (s0 : InvoiceStatus)
    (calls : List TransitionCall) :
    (LifecycleManager.init ref s0).history = [] ∧
    (runTransitions (LifecycleManager.init ref s0) calls).1.history.length =
      (runTransitions (LifecycleManager.init ref s0) calls).2 ∧
    ((runTransitions (LifecycleManager.init ref s0)
        calls).1.history.all (fun e => decide (e.status ≠ .DEPOSEE))) =
      true ∧
    (((runTransitions (LifecycleManager.init ref s0)
        calls).1.mandatory_events).all
      (fun e => decide (e.status ≠ .DEPOSEE))) = true := by
  obtain ⟨hlen, hmem⟩ := runTransitions_invariant calls
    (LifecycleManager.init ref s0)
  have hinit : (LifecycleManager.init ref s0).history = [] := rfl
  have hall : ∀ e ∈ (runTransitions (LifecycleManager.init ref s0)
      calls).1.history, e.status ≠ .DEPOSEE := by
    intro e he
    rcases hmem e he with h | h
    · rw [hinit] at h
      exact absurd h (List.not_mem_nil e)
    · exact h
  refine ⟨hinit, by simpa [hinit] using hlen, ?_, ?_⟩
  · rw [List.all_eq_true]
    intro e he
    exact decide_eq_true (hall e he)
  · rw [List.all_eq_true]
    intro e he
    have : e ∈ (runTransitions (LifecycleManager.init ref s0)
        calls).1.history := List.mem_filter.mp he |>.1
    exact decide_eq_true (hall e this)

/-- Witness for C3 at a concrete input: reason "non conforme". -/
theorem claim_C3_witness :
    ("non conforme" ≠ "") ∧
    (((LifecycleManager.mk "FA-2026-002" .PRISE_EN_CHARGE []).transition
        .REFUSEE {} 0).1 = .error (.missingReason .REFUSEE) ∧
      (∃ ev,
        ((LifecycleManager.mk "FA-2026-002" .PRISE_EN_CHARGE []).transition
            .REFUSEE { reason := some "non conforme" } 0).1 = .ok ev ∧
          ev.reason = some "non conforme") ∧
      ((LifecycleManager.mk "FA-2026-002" .PRISE_EN_CHARGE []).transition
          .REFUSEE { reason := some "non conforme" } 0).2.status =
        .REFUSEE) :=
  ⟨by decide, claim_C3 "FA-2026-002" [] "non conforme" (by decide) 0⟩

/-! ## Theorems: e-reporting validation (claims C6, C9, C10) -/

/-- C6: `validate_aggregated` raises the empty-declaration error (an
`Except.error`, not an entry of the returned list) for every aggregate
whose breakdown lines are all identically zero, and
`aggregate_transactions` raises the same error — same constructor, same
message — on the empty transaction list. -/
theorem claim_C6 (r : EReporter) (agg : AggregatedTransactionData)
    (ps pe : Date)
    (h : ∀ tb ∈ agg.tax_breakdowns,
      tb.taxable_amount = 0 ∧ tb.vat_amount = 0) :
    r.validate_aggregated agg =
      .error (.emptyDeclaration emptyDeclarationMsg) ∧
    r.aggregate_transactions [] ps pe =
      .error (.emptyDeclaration emptyDeclarationMsg) := by
  have h1 : agg.total_excl_tax = 0 := by
    unfold AggregatedTransactionData.total_excl_tax
    apply List.sum_eq_zero
    intro x hx
    rcases List.mem_map.mp hx with ⟨tb, htb, rfl⟩
    exact (h tb htb).1
  have h2 : agg.total_vat = 0 := by
    unfold AggregatedTransactionData.total_vat
    apply List.sum_eq_zero
    intro x hx
    rcases List.mem_map.mp hx with ⟨tb, htb, rfl⟩
    exact (h tb htb).2
  constructor
  · unfold EReporter.validate_aggregated
    rw [if_pos ⟨h1, h2⟩]
  · rfl

/-- Witness for C6 at a concrete input: an aggregate with one all-zero
breakdown line, and the empty transaction list. -/
theorem claim_C6_witness :
    (∀ tb ∈ sampleZeroAgg.tax_breakdowns,
      tb.taxable_amount = 0 ∧ tb.vat_amount = 0) ∧
    (sampleReporter.validate_aggregated sampleZeroAgg =
        .error (.emptyDeclaration emptyDeclarationMsg) ∧
      sampleReporter.aggregate_transactions [] samplePeriodStart
          samplePeriodEnd =
        .error (.emptyDeclaration emptyDeclarationMsg)) :=
  ⟨by decide,
   claim_C6 sampleReporter sampleZeroAgg samplePeriodStart samplePeriodEnd
     (by decide)⟩

/-- C9: the emptiness test of `validate_aggregated` is on the summed
totals, not on individual breakdown lines — whenever both totals are zero
it raises the empty-declaration error, whatever the individual lines and
whatever the SIREN (so a SIREN-mismatch error collected earlier in the
call is discarded by the raise). -/
theorem claim_C9 (r : EReporter) (agg : AggregatedTransactionData)
    (h1 : agg.total_excl_tax = 0) (h2 : agg.total_vat = 0) :
    r.validate_aggregated agg =
      .error (.emptyDeclaration emptyDeclarationMsg) := by
  unfold EReporter.validate_aggregated
  rw [if_pos ⟨h1, h2⟩]

/-- Witness for C9 at a concrete input: nonzero breakdown lines netting
out to zero, together with a mismatched SIREN. -/
theorem claim_C9_witness :
    sampleNetZeroAgg.total_excl_tax = 0 ∧
    sampleNetZeroAgg.total_vat = 0 ∧
    sampleNetZeroAgg.seller_siren ≠ sampleReporter.seller_siren ∧
    (∃ tb ∈ sampleNetZeroAgg.tax_breakdowns, tb.taxable_amount ≠ 0) ∧
    sampleReporter.validate_aggregated sampleNetZeroAgg =
      .error (.emptyDeclaration emptyDeclarationMsg) :=
  ⟨by simp [sampleNetZeroAgg, AggregatedTransactionData.total_excl_tax],
   by simp [sampleNetZeroAgg, AggregatedTransactionData.total_vat],
   by decide, by decide,
   claim_C9 sampleReporter sampleNetZeroAgg
     (by simp [sampleNetZeroAgg, AggregatedTransactionData.total_excl_tax])
     (by simp [sampleNetZeroAgg, AggregatedTransactionData.total_vat])⟩

/-- Helper: deduplicating a list whose elements are all equal to `a`
yields `[]` or `[a]`. -/
theorem dedup_all_eq {l : List String} {a : String}
    (h : ∀ x ∈ l, x = a) : l.dedup = [] ∨ l.dedup = [a] := by
  induction l with
  | nil => exact Or.inl rfl
  | cons x xs ih =>
    have hx : x = a := h x (List.mem_cons_self x xs)
    have hxs : ∀ y ∈ xs, y = a := fun y hy => h y (List.mem_cons_of_mem x hy)
    rcases ih hxs with h0 | h1
    · have hxs0 : xs = [] := (List.dedup_eq_nil _).mp h0
      subst hxs0
      right
      rw [List.dedup_cons_of_not_mem (List.not_mem_nil x), hx]
      rfl
    · have hmem : x ∈ xs := by
        have : a ∈ xs.dedup := by rw [h1]; exact List.mem_singleton_self a
        rw [hx]
        exact List.mem_dedup.mp this
      right
      rw [List.dedup_cons_of_mem hmem]
      exact h1

/-- C10: on a non-empty single-SIREN list, `aggregate_transactions`
succeeds and takes the operation category, the VAT-on-debits flag and the
seller SIREN of the aggregate from the first transaction only — there is
no check that the remaining transactions agree, so differing transactions
are merged silently. -/
theorem claim_C10 (r : EReporter) (t0 : TransactionData)
    (rest : List TransactionData) (ps pe : Date)
    (h : ∀ t ∈ t0 :: rest, t.seller_siren = t0.seller_siren) :
    ∃ agg, r.aggregate_transactions (t0 :: rest) ps pe = .ok agg ∧
      agg.operation_category = t0.operation_category ∧
      agg.vat_on_debits = t0.vat_on_debits ∧
      agg.seller_siren = t0.seller_siren := by
  have hmap : ∀ x ∈ (t0 :: rest).map (fun t => t.seller_siren),
      x = t0.seller_siren := by
    intro x hx
    rcases List.mem_map.mp hx with ⟨t, ht, rfl⟩
    exact h t ht
  have hdedup : ((t0 :: rest).map (fun t => t.seller_siren)).dedup =
      [t0.seller_siren] := by
    rcases dedup_all_eq hmap with h0 | h1
    · exact absurd ((List.dedup_eq_nil _).mp h0) (by simp)
    · exact h1
  unfold EReporter.aggregate_transactions
  dsimp only
  rw [hdedup]
  rw [if_neg (by simp)]
  exact ⟨_, rfl, rfl, rfl, rfl⟩

/-- Witness for C10 at a concrete input: two transactions with the same
SIREN but a different operation category and a different VAT-on-debits
option are merged silently under the values of the first one. -/
theorem claim_C10_witness :
    sampleTxnA.operation_category ≠ sampleTxnB.operation_category ∧
    sampleTxnA.vat_on_debits ≠ sampleTxnB.vat_on_debits ∧
    (∀ t ∈ sampleTxnA :: [sampleTxnB],
      t.seller_siren = sampleTxnA.seller_siren) ∧
    ∃ agg, sampleReporter.aggregate_transactions (sampleTxnA :: [sampleTxnB])
        samplePeriodStart samplePeriodEnd = .ok agg ∧
      agg.operation_category = sampleTxnA.operation_category ∧
      agg.vat_on_debits = sampleTxnA.vat_on_debits ∧
      agg.seller_siren = sampleTxnA.seller_siren :=
  ⟨by decide, by decide, by decide,
   claim_C10 sampleReporter sampleTxnA [sampleTxnB] samplePeriodStart
     samplePeriodEnd (by decide)⟩

/-! ## Theorems: transmission deadlines (claim C7) -/

/-- Helper: every month length lies between 28 and 31. -/
theorem monthLength_bounds (y m : Nat) :
    28 ≤ monthLength y m ∧ monthLength y m ≤ 31 := by
  unfold monthLength
  split
  · split <;> omega
  · split <;> omega

/-- Helper: comparing two dates of the same month compares the days. -/
theorem ltB_same_month (y m a b : Nat) :
    Date.ltB ⟨y, m, a⟩ ⟨y, m, b⟩ = decide (a < b) := by
  simp [Date.ltB]

/-- Helper: non-strict comparison within one month compares the days. -/
theorem leB_same_month (y m a b : Nat) :
    Date.leB ⟨y, m, a⟩ ⟨y, m, b⟩ = decide (a ≤ b) := by
  by_cases h2 : a < b
  · simp [Date.leB, Date.ltB, h2, Nat.le_of_lt]
  · by_cases h : a = b
    · subst h
      simp [Date.leB, Date.ltB]
    · simp [Date.leB, Date.ltB, h2, h, Date.mk.injEq]
      omega

/-- C7: for a reporter under one of the two real-normal regimes and any
valid reference date, `next_transaction_deadline` is the earliest of
{10th, 20th, last day of the month} strictly after the reference date,
and rolls to the 10th of the following month (January of the next year in
December) when no candidate of the month lies strictly after it. -/
theorem claim_C7 (r : EReporter) (d : Date)
    (hreg : r.vat_regime = .REAL_NORMAL_MONTHLY ∨
      r.vat_regime = .REAL_NORMAL_QUARTERLY)
    (hv : d.valid) :
    earliestCandidateSpec (r.next_transaction_deadline d) d := by
  have hres : r.next_transaction_deadline d = nextDecadalDeadline d := by
    unfold EReporter.next_transaction_deadline
    rw [if_pos hreg]
  rw [hres]
  obtain ⟨y, m, day⟩ := d
  obtain ⟨hm1, hm2, hd1, hd2⟩ := hv
  have hL := monthLength_bounds y m
  simp only at hd2
  have hcand : decadalCandidates ⟨y, m, day⟩ =
      [⟨y, m, 10⟩, ⟨y, m, 20⟩, ⟨y, m, monthLength y m⟩] := rfl
  by_cases c1 : day < 10
  · have hval : nextDecadalDeadline ⟨y, m, day⟩ = ⟨y, m, 10⟩ := by
      unfold nextDecadalDeadline
      rw [hcand, List.find?_cons_of_pos _ (by simp [ltB_same_month, c1])]
    rw [hval]
    constructor
    · intro _
      refine ⟨by rw [hcand]; simp, by simp [ltB_same_month, c1], ?_⟩
      intro c hc _
      rw [hcand] at hc
      simp only [List.mem_cons, List.not_mem_nil, or_false] at hc
      rcases hc with rfl | rfl | rfl
      · rw [leB_same_month]; simp
      · rw [leB_same_month]; simp
      · rw [leB_same_month]
        exact decide_eq_true (by omega)
    · intro hall
      exfalso
      have h10 := hall ⟨y, m, 10⟩ (by rw [hcand]; simp)
      rw [ltB_same_month] at h10
      exact of_decide_eq_false h10 c1
  · by_cases c2 : day < 20
    · have hval : nextDecadalDeadline ⟨y, m, day⟩ = ⟨y, m, 20⟩ := by
        unfold nextDecadalDeadline
        rw [hcand, List.find?_cons_of_neg _ (by simp [ltB_same_month, c1]),
          List.find?_cons_of_pos _ (by simp [ltB_same_month, c2])]
      rw [hval]
      constructor
      · intro _
        refine ⟨by rw [hcand]; simp, by simp [ltB_same_month, c2], ?_⟩
        intro c hc hlt
        rw [hcand] at hc
        simp only [List.mem_cons, List.not_mem_nil, or_false] at hc
        rcases hc with rfl | rfl | rfl
        · rw [ltB_same_month] at hlt
          exact absurd (of_decide_eq_true hlt) c1
        · rw [leB_same_month]; simp
        · rw [leB_same_month]
          exact decide_eq_true (by omega)
      · intro hall
        exfalso
        have h20 := hall ⟨y, m, 20⟩ (by rw [hcand]; simp)
        rw [ltB_same_month] at h20
        exact of_decide_eq_false h20 c2
    · by_cases c3 : day < monthLength y m
      · have hval : nextDecadalDeadline ⟨y, m, day⟩ =
            ⟨y, m, monthLength y m⟩ := by
          unfold nextDecadalDeadline
          rw [hcand, List.find?_cons_of_neg _ (by simp [ltB_same_month, c1]),
            List.find?_cons_of_neg _ (by simp [ltB_same_month, c2]),
            List.find?_cons_of_pos _ (by simp [ltB_same_month, c3])]
        rw [hval]
        constructor
        · intro _
          refine ⟨by rw [hcand]; simp, by simp [ltB_same_month, c3], ?_⟩
          intro c hc hlt
          rw [hcand] at hc
          simp only [List.mem_cons, List.not_mem_nil, or_false] at hc
          rcases hc with rfl | rfl | rfl
          · rw [ltB_same_month] at hlt
            exact absurd (of_decide_eq_true hlt) c1
          · rw [ltB_same_month] at hlt
            exact absurd (of_decide_eq_true hlt) c2
          · rw [leB_same_month]; simp
        · intro hall
          exfalso
          have hLd := hall ⟨y, m, monthLength y m⟩ (by rw [hcand]; simp)
          rw [ltB_same_month] at hLd
          exact of_decide_eq_false hLd c3
      · have hval : nextDecadalDeadline ⟨y, m, day⟩ =
            tenthOfNextMonth ⟨y, m, day⟩ := by
          unfold nextDecadalDeadline tenthOfNextMonth
          rw [hcand, List.find?_cons_of_neg _ (by simp [ltB_same_month, c1]),
            List.find?_cons_of_neg _ (by simp [ltB_same_month, c2]),
            List.find?_cons_of_neg _ (by simp [ltB_same_month, c3])]
          rfl
        rw [hval]
        constructor
        · intro hex
          exfalso
          obtain ⟨c, hc, hlt⟩ := hex
          rw [hcand] at hc
          simp only [List.mem_cons, List.not_mem_nil, or_false] at hc
          rcases hc with rfl | rfl | rfl
          · rw [ltB_same_month] at hlt
            exact absurd (of_decide_eq_true hlt) c1
          · rw [ltB_same_month] at hlt
            exact absurd (of_decide_eq_true hlt) c2
          · rw [ltB_same_month] at hlt
            exact absurd (of_decide_eq_true hlt) c3
        · intro _
          rfl

/-- Witness for C7 at a concrete input: from day 25 of the 30-day month
April 2026, the deadline is April 30, 2026; and the rule instance holds
there. -/
theorem claim_C7_witness :
    (sampleReporter.vat_regime = .REAL_NORMAL_MONTHLY ∨
      sampleReporter.vat_regime = .REAL_NORMAL_QUARTERLY) ∧
    Date.valid ⟨2026, 4, 25⟩ ∧
    sampleReporter.next_transaction_deadline ⟨2026, 4, 25⟩ = ⟨2026, 4, 30⟩ ∧
    earliestCandidateSpec
      (sampleReporter.next_transaction_deadline ⟨2026, 4, 25⟩)
      ⟨2026, 4, 25⟩ :=
  ⟨Or.inl rfl, by decide, by decide,
   claim_C7 sampleReporter ⟨2026, 4, 25⟩ (Or.inl rfl) (by decide)⟩

/-! ## Theorems: aggregation order and grouping (claim C5) -/

/-- Helper: inserting into a list permutes `x :: l`. -/
theorem insertSorted_perm {α : Type} (le : α → α → Bool) (x : α)
    (l : List α) : List.Perm (insertSorted le x l) (x :: l) := by
  induction l with
  | nil => exact List.Perm.refl _
  | cons y ys ih =>
    unfold insertSorted
    by_cases hcase : le y x = true
    · rw [if_pos hcase]
      exact (List.Perm.cons y ih).trans (List.Perm.swap x y ys)
    · rw [if_neg hcase]

/-- Helper: the insertion-fold permutes `acc ++ l`. -/
theorem foldl_insert_perm {α : Type} (le : α → α → Bool) (l : List α) :
    ∀ acc : List α,
      List.Perm (l.foldl (fun acc x => insertSorted le x acc) acc)
        (acc ++ l) := by
  induction l with
  | nil => intro acc; simp
  | cons x xs ih =>
    intro acc
    rw [List.foldl_cons]
    exact ((ih (insertSorted le x acc)).trans
      ((insertSorted_perm le x acc).append_right xs)).trans
      (List.perm_middle).symm

/-- Helper: `stableSort` permutes its input. -/
theorem stableSort_perm {α : Type} (le : α → α → Bool) (l : List α) :
    List.Perm (stableSort le l) l := by
  simpa using foldl_insert_perm le l []

/-- Helper: insertion preserves sortedness for a total transitive
comparison. -/
theorem insertSorted_pairwise {α : Type} (le : α → α → Bool)
    (htot : ∀ a b, le a b = true ∨ le b a = true)
    (htrans : ∀ a b c, le a b = true → le b c = true → le a c = true)
    (x : α) (l : List α) (h : l.Pairwise (fun a b => le a b = true)) :
    (insertSorted le x l).Pairwise (fun a b => le a b = true) := by
  induction l with
  | nil => simp [insertSorted]
  | cons y ys ih =>
    rcases List.pairwise_cons.mp h with ⟨hy, hys⟩
    unfold insertSorted
    by_cases hcase : le y x = true
    · rw [if_pos hcase]
      refine List.pairwise_cons.mpr ⟨?_, ih hys⟩
      intro b hb
      have hb2 := (insertSorted_perm le x ys).mem_iff.mp hb
      rcases List.mem_cons.mp hb2 with rfl | hmem
      · exact hcase
      · exact hy b hmem
    · rw [if_neg hcase]
      have hxy : le x y = true := (htot y x).resolve_left hcase
      refine List.pairwise_cons.mpr ⟨?_, List.pairwise_cons.mpr ⟨hy, hys⟩⟩
      intro b hb
      rcases List.mem_cons.mp hb with rfl | hmem
      · exact hxy
      · exact htrans x y b hxy (hy b hmem)

/-- Helper: the insertion-fold of a sorted accumulator stays sorted. -/
theorem foldl_insert_pairwise {α : Type} (le : α → α → Bool)
    (htot : ∀ a b, le a b = true ∨ le b a = true)
    (htrans : ∀ a b c, le a b = true → le b c = true → le a c = true)
    (l : List α) :
    ∀ acc : List α, acc.Pairwise (fun a b => le a b = true) →
      (l.foldl (fun acc x => insertSorted le x acc) acc).Pairwise
        (fun a b => le a b = true) := by
  induction l with
  | nil => intro acc hacc; exact hacc
  | cons x xs ih =>
    intro acc hacc
    rw [List.foldl_cons]
    exact ih _ (insertSorted_pairwise le htot htrans x acc hacc)

/-- Helper: `stableSort` sorts, for a total transitive comparison. -/
theorem stableSort_pairwise {α : Type} (le : α → α → Bool)
    (htot : ∀ a b, le a b = true ∨ le b a = true)
    (htrans : ∀ a b c, le a b = true → le b c = true → le a c = true)
    (l : List α) :
    (stableSort le l).Pairwise (fun a b => le a b = true) :=
  foldl_insert_pairwise le htot htrans l [] List.Pairwise.nil

/-- Helper: the breakdown comparison is total. -/
theorem bkLe_total (a b : (Option Rat × Bool) × (Rat × Rat)) :
    bkLe a b = true ∨ bkLe b a = true := by
  rcases a with ⟨⟨ar, af⟩, av⟩
  rcases b with ⟨⟨br, bf⟩, bv⟩
  unfold bkLe
  simp only
  rcases lt_trichotomy (rateKey ar) (rateKey br) with h | h | h
  · left
    simp [h]
  · rw [h]
    cases af <;> cases bf <;> simp [lt_irrefl]
  · right
    simp [h]

/-- Helper: the breakdown comparison is transitive. -/
theorem bkLe_trans (a b c : (Option Rat × Bool) × (Rat × Rat))
    (h1 : bkLe a b = true) (h2 : bkLe b c = true) : bkLe a c = true := by
  unfold bkLe at h1 h2 ⊢
  simp only [Bool.or_eq_true, Bool.and_eq_true, decide_eq_true_eq]
    at h1 h2 ⊢
  rcases h1 with h1 | ⟨h1e, h1b⟩ <;> rcases h2 with h2 | ⟨h2e, h2b⟩
  · exact Or.inl (lt_trans h1 h2)
  · exact Or.inl (h2e ▸ h1)
  · exact Or.inl (h1e ▸ h2)
  · right
    refine ⟨h1e.trans h2e, ?_⟩
    rcases a with ⟨⟨ar, af⟩, av⟩
    rcases b with ⟨⟨br, bf⟩, bv⟩
    rcases c with ⟨⟨cr, cf⟩, cv⟩
    simp only at h1b h2b ⊢
    cases af <;> cases bf <;> cases cf <;> simp_all

/-- Helper: association-list lookup on a cons cell. -/
theorem lookupBk_cons (x : (Option Rat × Bool) × (Rat × Rat))
    (xs : List ((Option Rat × Bool) × (Rat × Rat)))
    (k : Option Rat × Bool) :
    lookupBk (x :: xs) k = if x.1 = k then some x.2 else lookupBk xs k := by
  unfold lookupBk
  by_cases h : x.1 = k
  · rw [List.find?_cons_of_pos _ (by simp [h]), if_pos h]
    rfl
  · rw [List.find?_cons_of_neg _ (by simp [h]), if_neg h]

/-- Helper: lookup after an insert-or-accumulate step. -/
theorem lookupBk_upd (acc : List ((Option Rat × Bool) × (Rat × Rat)))
    (k k' : Option Rat × Bool) (t v : Rat) :
    lookupBk (updBreakdowns acc k t v) k' =
      if k' = k then
        some (match lookupBk acc k with
              | some p => (p.1 + t, p.2 + v)
              | none => (t, v))
      else lookupBk acc k' := by
  induction acc with
  | nil =>
    unfold updBreakdowns
    by_cases h : k' = k
    · subst h
      rw [if_pos rfl, lookupBk_cons]
      simp [lookupBk]
    · rw [if_neg h, lookupBk_cons, if_neg (fun hk => h hk.symm)]
  | cons e rest ih =>
    unfold updBreakdowns
    by_cases he : e.1 = k
    · rw [if_pos he]
      by_cases h : k' = k
      · subst h
        rw [if_pos rfl, lookupBk_cons, lookupBk_cons, if_pos he,
          if_pos he]
      · rw [if_neg h, lookupBk_cons, lookupBk_cons]
        have hne : ¬ e.1 = k' := fun hk => h (by rw [← hk, he])
        rw [if_neg hne, if_neg hne]
    · rw [if_neg he]
      by_cases h : k' = k
      · rw [h] at ih ⊢
        rw [if_pos rfl,
          lookupBk_cons e (updBreakdowns rest k t v) k,
          if_neg he, lookupBk_cons e rest k, if_neg he, ih, if_pos rfl]
      · rw [if_neg h,
          lookupBk_cons e (updBreakdowns rest k t v) k',
          lookupBk_cons e rest k', ih, if_neg h]

/-- Helper: keys after an insert-or-accumulate step. -/
theorem keys_upd (acc : List ((Option Rat × Bool) × (Rat × Rat)))
    (k : Option Rat × Bool) (t v : Rat) :
    (updBreakdowns acc k t v).map Prod.fst =
      if k ∈ acc.map Prod.fst then acc.map Prod.fst
      else acc.map Prod.fst ++ [k] := by
  induction acc with
  | nil => simp [updBreakdowns]
  | cons e rest ih =>
    unfold updBreakdowns
    by_cases he : e.1 = k
    · rw [if_pos he]
      have hmem : k ∈ (e :: rest).map Prod.fst := by
        rw [List.map_cons, he]
        exact List.mem_cons_self _ _
      rw [if_pos hmem, List.map_cons, List.map_cons]
    · rw [if_neg he, List.map_cons, List.map_cons, ih]
      by_cases hmem : k ∈ rest.map Prod.fst
      · rw [if_pos hmem,
          if_pos (List.mem_cons_of_mem _ hmem)]
      · rw [if_neg hmem, if_neg ?_, List.cons_append]
        intro hk
        rcases List.mem_cons.mp hk with hk | hk
        · exact he hk.symm
        · exact hmem hk

/-- Helper: key membership after an insert-or-accumulate step. -/
theorem mem_keys_upd (acc : List ((Option Rat × Bool) × (Rat × Rat)))
    (k k' : Option Rat × Bool) (t v : Rat) :
    (k' ∈ (updBreakdowns acc k t v).map Prod.fst) ↔
      (k' ∈ acc.map Prod.fst ∨ k' = k) := by
  rw [keys_upd]
  by_cases h : k ∈ acc.map Prod.fst
  · rw [if_pos h]
    constructor
    · exact Or.inl
    · rintro (h1 | rfl)
      · exact h1
      · exact h
  · rw [if_neg h]
    simp [List.mem_append]

/-- Helper: keys of the grouping dict stay duplicate-free along the
fold. -/
theorem keys_groupFold_nodup (l : List TransactionData) :
    ∀ acc : List ((Option Rat × Bool) × (Rat × Rat)),
      (acc.map Prod.fst).Nodup →
      ((l.foldl (fun acc txn =>
          updBreakdowns acc (txnKey txn) txn.total_excl_tax
            txn.vat_amount) acc).map Prod.fst).Nodup := by
  induction l with
  | nil => intro acc hacc; exact hacc
  | cons x xs ih =>
    intro acc hacc
    rw [List.foldl_cons]
    apply ih
    rw [keys_upd]
    by_cases h : txnKey x ∈ acc.map Prod.fst
    · rw [if_pos h]; exact hacc
    · rw [if_neg h]
      simp [List.nodup_append, hacc, h]

/-- Helper: key membership in the final grouping dict. -/
theorem mem_keys_groupFold (l : List TransactionData) :
    ∀ (acc : List ((Option Rat × Bool) × (Rat × Rat)))
      (k : Option Rat × Bool),
      (k ∈ (l.foldl (fun acc txn =>
          updBreakdowns acc (txnKey txn) txn.total_excl_tax
            txn.vat_amount) acc).map Prod.fst) ↔
        (k ∈ acc.map Prod.fst ∨ k ∈ l.map txnKey) := by
  induction l with
  | nil =>
    intro acc k
    simp
  | cons x xs ih =>
    intro acc k
    rw [List.foldl_cons, ih, mem_keys_upd, List.map_cons, List.mem_cons]
    tauto

/-- Helper: decomposing the per-key taxable sum over a cons cell. -/
theorem sumTaxable_cons (x : TransactionData) (xs : List TransactionData)
    (k : Option Rat × Bool) :
    sumTaxable (x :: xs) k =
      (if txnKey x = k then x.total_excl_tax else 0) + sumTaxable xs k := by
  unfold sumTaxable
  by_cases h : txnKey x = k
  · simp [List.filter_cons, h]
  · simp [List.filter_cons, h]

/-- Helper: decomposing the per-key VAT sum over a cons cell. -/
theorem sumVat_cons (x : TransactionData) (xs : List TransactionData)
    (k : Option Rat × Bool) :
    sumVat (x :: xs) k =
      (if txnKey x = k then x.vat_amount else 0) + sumVat xs k := by
  unfold sumVat
  by_cases h : txnKey x = k
  · simp [List.filter_cons, h]
  · simp [List.filter_cons, h]

/-- Helper: the per-key sums vanish when no transaction carries the
key. -/
theorem sums_eq_zero_of_not_mem (l : List TransactionData)
    (k : Option Rat × Bool) (h : k ∉ l.map txnKey) :
    sumTaxable l k = 0 ∧ sumVat l k = 0 := by
  have hfil : l.filter (fun t => decide (txnKey t = k)) = [] := by
    rw [List.filter_eq_nil_iff]
    intro t ht
    simp only [decide_eq_true_eq]
    intro hk
    exact h (List.mem_map.mpr ⟨t, ht, hk⟩)
  unfold sumTaxable sumVat
  rw [hfil]
  exact ⟨rfl, rfl⟩

/-- Helper: the grouping fold accumulates exactly the per-key sums. -/
theorem lookupBk_groupFold (l : List TransactionData) :
    ∀ (acc : List ((Option Rat × Bool) × (Rat × Rat)))
      (k : Option Rat × Bool),
      lookupBk (l.foldl (fun acc txn =>
          updBreakdowns acc (txnKey txn) txn.total_excl_tax
            txn.vat_amount) acc) k =
        if k ∈ l.map txnKey then
          some (((lookupBk acc k).getD (0, 0)).1 + sumTaxable l k,
                ((lookupBk acc k).getD (0, 0)).2 + sumVat l k)
        else lookupBk acc k := by
  induction l with
  | nil =>
    intro acc k
    simp
  | cons x xs ih =>
    intro acc k
    rw [List.foldl_cons, ih, sumTaxable_cons, sumVat_cons,
      List.map_cons]
    by_cases hk : k = txnKey x
    · rw [hk, lookupBk_upd, if_pos rfl, if_pos rfl, if_pos rfl,
        if_pos (List.mem_cons_self (txnKey x) (xs.map txnKey))]
      by_cases hmem2 : txnKey x ∈ xs.map txnKey
      · rw [if_pos hmem2]
        rcases hacc : lookupBk acc (txnKey x) with _ | p
        · simp only [hacc, Option.getD_none, Option.getD_some,
            Option.some.injEq, Prod.mk.injEq]
          constructor <;> ring
        · simp only [hacc, Option.getD_none, Option.getD_some,
            Option.some.injEq, Prod.mk.injEq]
          constructor <;> ring
      · rw [if_neg hmem2]
        obtain ⟨hz1, hz2⟩ := sums_eq_zero_of_not_mem xs (txnKey x) hmem2
        rw [hz1, hz2]
        rcases hacc : lookupBk acc (txnKey x) with _ | p
        · simp only [hacc, Option.getD_none, Option.getD_some,
            Option.some.injEq, Prod.mk.injEq]
          constructor <;> ring
        · simp only [hacc, Option.getD_none, Option.getD_some,
            Option.some.injEq, Prod.mk.injEq]
          constructor <;> ring
    · rw [lookupBk_upd, if_neg hk]
      have hif : (if txnKey x = k then x.total_excl_tax else 0) = 0 :=
        if_neg (fun hx => hk hx.symm)
      have hif2 : (if txnKey x = k then x.vat_amount else 0) = 0 :=
        if_neg (fun hx => hk hx.symm)
      rw [hif, hif2]
      have hmemiff : (k ∈ txnKey x :: xs.map txnKey) ↔
          (k ∈ xs.map txnKey) := by
        constructor
        · intro hc
          rcases List.mem_cons.mp hc with hc | hc
          · exact absurd hc hk
          · exact hc
        · exact List.mem_cons_of_mem _
      by_cases hmem : k ∈ xs.map txnKey
      · rw [if_pos hmem, if_pos (hmemiff.mpr hmem)]
        congr 1
        rw [Prod.mk.injEq]
        constructor <;> ring
      · rw [if_neg hmem, if_neg (fun hc => hmem (hmemiff.mp hc))]

/-- Helper: in an association list with duplicate-free keys, every entry
is found by lookup. -/
theorem lookup_of_mem_nodup
    (G : List ((Option Rat × Bool) × (Rat × Rat)))
    (hn : (G.map Prod.fst).Nodup) (k : Option Rat × Bool) (v : Rat × Rat)
    (h : (k, v) ∈ G) : lookupBk G k = some v := by
  induction G with
  | nil => cases h
  | cons e rest ih =>
    rw [List.map_cons, List.nodup_cons] at hn
    rcases List.mem_cons.mp h with rfl | hmem
    · rw [lookupBk_cons, if_pos rfl]
    · have hne : e.1 ≠ k := by
        intro he
        exact hn.1 (he ▸ List.mem_map.mpr ⟨(k, v), hmem, rfl⟩)
      rw [lookupBk_cons, if_neg hne]
      exact ih hn.2 hmem

/-- C5, counterexample: the claim says a group with no rate (`None`) is
ordered strictly before a group with rate 0. In the code the sort key is
`x[0][0] or Decimal("-1")`, and Python `or` replaces every falsy value —
`None` but also a zero `Decimal` — by `-1`, so the two groups tie on the
rate key; here the tie-break on the exemption flag puts the rate-0 group
strictly before the no-rate group. -/
theorem claim_C5_counterexample :
    Except.map (fun agg => agg.tax_breakdowns.map (fun tb => tb.vat_rate))
      (sampleReporter.aggregate_transactions [txnZeroRate, txnNoRate]
        samplePeriodStart samplePeriodEnd) = .ok [some 0, none] := by
  decide

/-- C5, amended: for every non-empty single-SIREN transaction list,
`aggregate_transactions` groups the transactions by the pair
(vat_rate, vat_exemption) — one breakdown line per distinct key, summing
taxable and VAT amounts within each group — and returns the groups sorted
ascending by (rate key, exemption flag), where the rate key maps both a
missing rate and a zero rate to -1 (so a no-rate group and a rate-0 group
tie on the rate and are ordered by the exemption flag alone). -/
theorem claim_C5_amended (r : EReporter) (t0 : TransactionData)
    (rest : List TransactionData) (ps pe : Date)
    (h : ∀ t ∈ t0 :: rest, t.seller_siren = t0.seller_siren) :
    ∃ agg, r.aggregate_transactions (t0 :: rest) ps pe = .ok agg ∧
      agg.tax_breakdowns.Pairwise (fun a b => tbLe a b = true) ∧
      (agg.tax_breakdowns.map tbKey).Nodup ∧
      (∀ k, k ∈ agg.tax_breakdowns.map tbKey ↔
        k ∈ (t0 :: rest).map txnKey) ∧
      (∀ tb ∈ agg.tax_breakdowns,
        tb.taxable_amount = sumTaxable (t0 :: rest) (tbKey tb) ∧
        tb.vat_amount = sumVat (t0 :: rest) (tbKey tb)) := by
  have hmap : ∀ x ∈ (t0 :: rest).map (fun t => t.seller_siren),
      x = t0.seller_siren := by
    intro x hx
    rcases List.mem_map.mp hx with ⟨t, ht, rfl⟩
    exact h t ht
  have hdedup : ((t0 :: rest).map (fun t => t.seller_siren)).dedup =
      [t0.seller_siren] := by
    rcases dedup_all_eq hmap with h0 | h1
    · exact absurd ((List.dedup_eq_nil _).mp h0) (by simp)
    · exact h1
  have hok : r.aggregate_transactions (t0 :: rest) ps pe =
      .ok { seller_siren := t0.seller_siren, period_start := ps,
            period_end := pe,
            operation_category := t0.operation_category,
            tax_breakdowns :=
              (stableSort bkLe (groupBreakdowns (t0 :: rest))).map
                mkBreakdown,
            vat_on_debits := t0.vat_on_debits } := by
    unfold EReporter.aggregate_transactions
    dsimp only
    rw [hdedup, if_neg (by simp)]
  have hGnodup : ((groupBreakdowns (t0 :: rest)).map Prod.fst).Nodup := by
    apply keys_groupFold_nodup (t0 :: rest) []
    simp
  have hperm : List.Perm (stableSort bkLe (groupBreakdowns (t0 :: rest)))
      (groupBreakdowns (t0 :: rest)) :=
    stableSort_perm bkLe (groupBreakdowns (t0 :: rest))
  have hkeysperm : List.Perm
      ((stableSort bkLe (groupBreakdowns (t0 :: rest))).map Prod.fst)
      ((groupBreakdowns (t0 :: rest)).map Prod.fst) := hperm.map Prod.fst
  have hSnodup :
      ((stableSort bkLe (groupBreakdowns (t0 :: rest))).map
        Prod.fst).Nodup := hkeysperm.nodup_iff.mpr hGnodup
  have hmemkeys : ∀ k, k ∈ (groupBreakdowns (t0 :: rest)).map Prod.fst ↔
      k ∈ (t0 :: rest).map txnKey := by
    intro k
    have hmk := mem_keys_groupFold (t0 :: rest) [] k
    simpa [groupBreakdowns] using hmk
  have hlook : ∀ k, lookupBk (groupBreakdowns (t0 :: rest)) k =
      if k ∈ (t0 :: rest).map txnKey then
        some (sumTaxable (t0 :: rest) k, sumVat (t0 :: rest) k)
      else none := by
    intro k
    have hlf := lookupBk_groupFold (t0 :: rest) [] k
    simpa [groupBreakdowns, lookupBk] using hlf
  have hkeymap :
      ((stableSort bkLe (groupBreakdowns (t0 :: rest))).map
          mkBreakdown).map tbKey =
        (stableSort bkLe (groupBreakdowns (t0 :: rest))).map Prod.fst := by
    rw [List.map_map]
    apply List.map_congr_left
    intro e _
    show (e.1.1, e.1.2) = e.1
    exact Prod.mk.eta
  refine ⟨_, hok, ?_, ?_, ?_, ?_⟩
  · apply List.pairwise_map.mpr
    apply List.Pairwise.imp ?_
      (stableSort_pairwise bkLe bkLe_total bkLe_trans
        (groupBreakdowns (t0 :: rest)))
    intro a b hab
    exact hab
  · show (((stableSort bkLe (groupBreakdowns (t0 :: rest))).map
      mkBreakdown).map tbKey).Nodup
    rw [hkeymap]
    exact hSnodup
  · intro k
    show k ∈ ((stableSort bkLe (groupBreakdowns (t0 :: rest))).map
      mkBreakdown).map tbKey ↔ _
    rw [hkeymap, hkeysperm.mem_iff]
    exact hmemkeys k
  · intro tb htb
    rcases List.mem_map.mp htb with ⟨e, heS, rfl⟩
    have heG : e ∈ groupBreakdowns (t0 :: rest) := hperm.mem_iff.mp heS
    obtain ⟨k, v⟩ := e
    have hlk : lookupBk (groupBreakdowns (t0 :: rest)) k = some v :=
      lookup_of_mem_nodup _ hGnodup k v heG
    rw [hlook k] at hlk
    have hkey : tbKey (mkBreakdown (k, v)) = k := by
      show (k.1, k.2) = k
      exact Prod.mk.eta
    by_cases hmem : k ∈ (t0 :: rest).map txnKey
    · rw [if_pos hmem] at hlk
      have hv : v = (sumTaxable (t0 :: rest) k, sumVat (t0 :: rest) k) :=
        (Option.some.inj hlk).symm
      rw [hkey]
      constructor
      · show v.1 = _
        rw [hv]
      · show v.2 = _
        rw [hv]
    · rw [if_neg hmem] at hlk
      cases hlk

/-- Witness for the amended C5 at a concrete input: the zero-rate and
no-rate transactions are grouped, summed and sorted as stated. -/
theorem claim_C5_amended_witness :
    (∀ t ∈ txnZeroRate :: [txnNoRate],
      t.seller_siren = txnZeroRate.seller_siren) ∧
    (∃ agg, sampleReporter.aggregate_transactions
        (txnZeroRate :: [txnNoRate]) samplePeriodStart samplePeriodEnd =
        .ok agg ∧
      agg.tax_breakdowns.Pairwise (fun a b => tbLe a b = true) ∧
      (agg.tax_breakdowns.map tbKey).Nodup ∧
      (∀ k, k ∈ agg.tax_breakdowns.map tbKey ↔
        k ∈ (txnZeroRate :: [txnNoRate]).map txnKey) ∧
      (∀ tb ∈ agg.tax_breakdowns,
        tb.taxable_amount = sumTaxable (txnZeroRate :: [txnNoRate])
          (tbKey tb) ∧
        tb.vat_amount = sumVat (txnZeroRate :: [txnNoRate]) (tbKey tb))) :=
  ⟨by decide,
   claim_C5_amended sampleReporter txnZeroRate [txnNoRate]
     samplePeriodStart samplePeriodEnd (by decide)⟩

/-! ## Theorems: CDAR wire-format round trip (claim C4) -/

/-- Helper: binding a success in `Except` applies the continuation. -/
theorem except_bind_ok {ε α β : Type} (a : α) (f : α → Except ε β) :
    (Except.ok a : Except ε α) >>= f = f a := rfl

/-- Helper: every status wire code is a non-empty string. -/
theorem status_value_ne : ∀ st : InvoiceStatus, st.value ≠ "" := by decide

/-- Helper: decoding the wire code of a status yields the status. -/
theorem status_fromCode_value :
    ∀ st : InvoiceStatus, InvoiceStatus.fromCode st.value = some st := by
  decide

/-- Helper: every role wire code is a non-empty string. -/
theorem role_value_ne : ∀ rc : CDARRoleCode, rc.value ≠ "" := by decide

/-- Helper: decoding the wire code of a role yields the role. -/
theorem role_fromCode_value :
    ∀ rc : CDARRoleCode, CDARRoleCode.fromCode rc.value = some rc := by
  decide

/-- Helper: normalising a non-empty text keeps it. -/
theorem normText_some {s : String} (h : s ≠ "") :
    normText (some s) = some s := by
  simp [normText, h]

/-- Helper: a digit character produced by `Nat.digitChar` is a digit. -/
theorem isDigit_digitChar : ∀ k < 10, (Nat.digitChar k).isDigit = true := by
  decide

/-- Helper: `digitVal` inverts `Nat.digitChar` on digits. -/
theorem digitVal_digitChar : ∀ k < 10, digitVal (Nat.digitChar k) = k := by
  decide

/-- Helper: a formatted date string is never empty (the month and day
fields alone contribute four characters). -/
theorem formatDate102_ne (d : Date) : formatDate102 d ≠ "" := by
  intro h
  have hlen : (formatDate102 d).data.length =
      (formatYear d.year).data.length + 4 := by
    show (((formatYear d.year).data ++ (pad2 d.month).data) ++
      (pad2 d.day).data).length = _
    simp [pad2]
  rw [h] at hlen
  have h0 : ("" : String).data.length = 0 := rfl
  omega

/-- Helper: the model reproduces the unpadded-year behaviour of the
platform `strftime` — December 31 of year 999 formats to the
seven-character "9991231", on which the `%Y%m%d` round trip does not
recover the date. -/
theorem formatDate102_year999 :
    formatDate102 ⟨999, 12, 31⟩ = "9991231" ∧
    parseDate102 "9991231" = none := by decide

/-- Helper: `strptime("%Y%m%d")` inverts `strftime("%Y%m%d")` on every
constructible date with a four-digit year (1000–9999); below 1000 the
unpadded year makes the real round trip misparse or raise, which is why
the amended roundtrip claim excludes those years. -/
theorem parse_format_date (d : Date) (hy1 : 1000 ≤ d.year)
    (hy2 : d.year ≤ 9999) (hv : d.valid) :
    parseDate102 (formatDate102 d) = some d := by
  obtain ⟨y, m, day⟩ := d
  obtain ⟨hm1, hm2, hd1, hd2⟩ := hv
  dsimp only at hy1 hy2 hm1 hm2 hd1 hd2
  have hdata : (formatDate102 ⟨y, m, day⟩).data =
      [Nat.digitChar (y / 1000 % 10), Nat.digitChar (y / 100 % 10),
       Nat.digitChar (y / 10 % 10), Nat.digitChar (y % 10),
       Nat.digitChar (m / 10 % 10), Nat.digitChar (m % 10),
       Nat.digitChar (day / 10 % 10), Nat.digitChar (day % 10)] := by
    unfold formatDate102 formatYear
    rw [if_neg (by dsimp only; omega), if_neg (by dsimp only; omega),
      if_neg (by dsimp only; omega)]
    rfl
  unfold parseDate102
  rw [hdata]
  have hdig : ∀ k : Nat, (Nat.digitChar (k % 10)).isDigit = true :=
    fun k => isDigit_digitChar (k % 10) (Nat.mod_lt k (by omega))
  have hval : ∀ k : Nat, digitVal (Nat.digitChar (k % 10)) = k % 10 :=
    fun k => digitVal_digitChar (k % 10) (Nat.mod_lt k (by omega))
  simp only [hdig, Bool.and_self, if_true, hval]
  have hL := monthLength_bounds y m
  have hy : 1000 * (y / 1000 % 10) + 100 * (y / 100 % 10) +
      10 * (y / 10 % 10) + y % 10 = y := by omega
  have hm : 10 * (m / 10 % 10) + m % 10 = m := by omega
  have hd : 10 * (day / 10 % 10) + day % 10 = day := by omega
  rw [hy, hm, hd, if_pos ⟨by omega, hm1, hm2, hd1, hd2⟩]

/-- Helper: parsing a normalised generated party element recovers the
party. -/
theorem parseParty_norm (t : String) (p : CDARParty) :
    parseParty (Xml.elem t [] none
      [Xml.elem "ram:ID" [("schemeID", p.scheme_id)]
        (normText (some p.identifier)) [],
       Xml.elem "ram:RoleCode" [] (normText (some p.role_code.value))
         []]) = .ok p := by
  obtain ⟨pid, psch, prole⟩ := p
  simp only
  rw [normText_some (role_value_ne prole)]
  by_cases hpid : pid = ""
  · subst hpid
    cases prole <;> rfl
  · rw [normText_some hpid]
    cases prole <;> rfl

/-- Helper: normalising absent text keeps it absent. -/
theorem normText_none : normText none = none := rfl

/-- Helper: the parser loop over the normalised recipient list recovers
every recipient (general accumulator form of `List.mapM`). -/
theorem mapM_loop_parseParty_norm (l : List CDARParty) :
    ∀ acc : List CDARParty,
      List.mapM.loop parseParty
        (l.map (fun p => Xml.elem "ram:RecipientTradeParty" [] none
          [Xml.elem "ram:ID" [("schemeID", p.scheme_id)]
            (normText (some p.identifier)) [],
           Xml.elem "ram:RoleCode" []
             (normText (some p.role_code.value)) []])) acc =
      .ok (acc.reverse ++ l) := by
  induction l with
  | nil =>
    intro acc
    simp only [List.map_nil, List.mapM.loop, List.append_nil]
    rfl
  | cons p ps ih =>
    intro acc
    rw [List.map_cons]
    simp only [List.mapM.loop]
    rw [parseParty_norm "ram:RecipientTradeParty" p, except_bind_ok, ih]
    simp

/-- C4, counterexample: a validly constructed message whose reason is the
empty string does not round-trip — the generator's truthiness test
`if message.reason:` skips the element, so the parser returns `None`
instead of `""`. -/
theorem claim_C4_counterexample :
    c4EmptyReasonMsg.reason = some "" ∧
    Except.map (fun mm => mm.reason) (cdarRoundtrip c4EmptyReasonMsg) =
      .ok none := by decide

/-- C4, amended: `parse(generate(m))` reproduces the whole message —
message id, status code, invoice reference, sender (identifier, scheme,
role), full recipient list, reason, reason code and the amount's decimal
textual form — provided the message id and invoice reference are
non-empty, the reason and reason code are each absent or non-empty
(empty strings are falsy in Python and are silently dropped by the
generator or rejected by the parser), and the issue date's year is at
least 1000 (the platform `strftime("%Y")` emits years below 1000
unpadded, so `strptime("%Y%m%d")` then misreads the digit boundaries and
raises or garbles the date). The remaining hypotheses hold for every
pydantic-valid message: a `Decimal`'s `str()` form is never empty, and a
`datetime` always carries a constructible date with year at most 9999. -/
theorem claim_C4_amended (m : CDARMessage)
    (hid : m.message_id ≠ "") (href : m.invoice_reference ≠ "")
    (hr : m.reason ≠ some "") (hrc : m.reason_code ≠ some "")
    (ha : m.amount ≠ some "")
    (hy1 : 1000 ≤ m.issue_datetime.year)
    (hy2 : m.issue_datetime.year ≤ 9999)
    (hv : m.issue_datetime.valid) :
    cdarRoundtrip m = .ok m := by
  obtain ⟨mid, idt, st, iref, snd, rcp, rsn, rc0, amt⟩ := m
  dsimp only at hid href hr hrc ha hy1 hy2 hv
  have hdate : parseDate102 (formatDate102 idt) = some idt :=
    parse_format_date idt hy1 hy2 hv
  have hfne : formatDate102 idt ≠ "" := formatDate102_ne idt
  have hstv : st.value ≠ "" := status_value_ne st
  have hstc : InvoiceStatus.fromCode st.value = some st :=
    status_fromCode_value st
  have hsender := parseParty_norm "ram:SenderTradeParty" snd
  have hrecip : List.mapM.loop parseParty
      (rcp.map (fun p => Xml.elem "ram:RecipientTradeParty" [] none
        [Xml.elem "ram:ID" [("schemeID", p.scheme_id)]
          (normText (some p.identifier)) [],
         Xml.elem "ram:RoleCode" []
           (normText (some p.role_code.value)) []])) [] = .ok rcp := by
    simpa using mapM_loop_parseParty_norm rcp []
  rcases rsn with _ | rs <;> rcases rc0 with _ | rcs <;>
    rcases amt with _ | ams
  · simp [cdarRoundtrip, CDARGenerator.generate_xml, buildContext,
      buildExchangedDocument, buildAcknowledgementDocument, buildParty,
      wireNormalize, wnAux, CDARParser.parse, getText, getTextOptional,
      Xml.findChild, Xml.findAll, Xml.children, Xml.tag, Xml.text,
      pyTruthy, normText_none, normText_some hid, normText_some href,
      normText_some hfne, normText_some hstv, except_bind_ok, hdate,
      hstc, hsender, hrecip, List.filter_map, Function.comp_def, hid, href, hfne, hstv]
  · have hams : ams ≠ "" := fun hh => ha (by rw [hh])
    simp [cdarRoundtrip, CDARGenerator.generate_xml, buildContext,
      buildExchangedDocument, buildAcknowledgementDocument, buildParty,
      wireNormalize, wnAux, CDARParser.parse, getText, getTextOptional,
      Xml.findChild, Xml.findAll, Xml.children, Xml.tag, Xml.text,
      pyTruthy, normText_none, normText_some hid, normText_some href,
      normText_some hfne, normText_some hstv, except_bind_ok, hdate,
      hstc, hsender, hrecip, List.filter_map, Function.comp_def, hid, href, hfne, hstv, hams,
      normText_some hams]
  · have hrcs : rcs ≠ "" := fun hh => hrc (by rw [hh])
    simp [cdarRoundtrip, CDARGenerator.generate_xml, buildContext,
      buildExchangedDocument, buildAcknowledgementDocument, buildParty,
      wireNormalize, wnAux, CDARParser.parse, getText, getTextOptional,
      Xml.findChild, Xml.findAll, Xml.children, Xml.tag, Xml.text,
      pyTruthy, normText_none, normText_some hid, normText_some href,
      normText_some hfne, normText_some hstv, except_bind_ok, hdate,
      hstc, hsender, hrecip, List.filter_map, Function.comp_def, hid, href, hfne, hstv, hrcs,
      normText_some hrcs]
  · have hrcs : rcs ≠ "" := fun hh => hrc (by rw [hh])
    have hams : ams ≠ "" := fun hh => ha (by rw [hh])
    simp [cdarRoundtrip, CDARGenerator.generate_xml, buildContext,
      buildExchangedDocument, buildAcknowledgementDocument, buildParty,
      wireNormalize, wnAux, CDARParser.parse, getText, getTextOptional,
      Xml.findChild, Xml.findAll, Xml.children, Xml.tag, Xml.text,
      pyTruthy, normText_none, normText_some hid, normText_some href,
      normText_some hfne, normText_some hstv, except_bind_ok, hdate,
      hstc, hsender, hrecip, List.filter_map, Function.comp_def, hid, href, hfne, hstv, hrcs, hams,
      normText_some hrcs, normText_some hams]
  · have hrs : rs ≠ "" := fun hh => hr (by rw [hh])
    simp [cdarRoundtrip, CDARGenerator.generate_xml, buildContext,
      buildExchangedDocument, buildAcknowledgementDocument, buildParty,
      wireNormalize, wnAux, CDARParser.parse, getText, getTextOptional,
      Xml.findChild, Xml.findAll, Xml.children, Xml.tag, Xml.text,
      pyTruthy, normText_none, normText_some hid, normText_some href,
      normText_some hfne, normText_some hstv, except_bind_ok, hdate,
      hstc, hsender, hrecip, List.filter_map, Function.comp_def, hid, href, hfne, hstv, hrs,
      normText_some hrs]
  · have hrs : rs ≠ "" := fun hh => hr (by rw [hh])
    have hams : ams ≠ "" := fun hh => ha (by rw [hh])
    simp [cdarRoundtrip, CDARGenerator.generate_xml, buildContext,
      buildExchangedDocument, buildAcknowledgementDocument, buildParty,
      wireNormalize, wnAux, CDARParser.parse, getText, getTextOptional,
      Xml.findChild, Xml.findAll, Xml.children, Xml.tag, Xml.text,
      pyTruthy, normText_none, normText_some hid, normText_some href,
      normText_some hfne, normText_some hstv, except_bind_ok, hdate,
      hstc, hsender, hrecip, List.filter_map, Function.comp_def, hid, href, hfne, hstv, hrs, hams,
      normText_some hrs, normText_some hams]
  · have hrs : rs ≠ "" := fun hh => hr (by rw [hh])
    have hrcs : rcs ≠ "" := fun hh => hrc (by rw [hh])
    simp [cdarRoundtrip, CDARGenerator.generate_xml, buildContext,
      buildExchangedDocument, buildAcknowledgementDocument, buildParty,
      wireNormalize, wnAux, CDARParser.parse, getText, getTextOptional,
      Xml.findChild, Xml.findAll, Xml.children, Xml.tag, Xml.text,
      pyTruthy, normText_none, normText_some hid, normText_some href,
      normText_some hfne, normText_some hstv, except_bind_ok, hdate,
      hstc, hsender, hrecip, List.filter_map, Function.comp_def, hid, href, hfne, hstv, hrs, hrcs,
      normText_some hrs, normText_some hrcs]
  · have hrs : rs ≠ "" := fun hh => hr (by rw [hh])
    have hrcs : rcs ≠ "" := fun hh => hrc (by rw [hh])
    have hams : ams ≠ "" := fun hh => ha (by rw [hh])
    simp [cdarRoundtrip, CDARGenerator.generate_xml, buildContext,
      buildExchangedDocument, buildAcknowledgementDocument, buildParty,
      wireNormalize, wnAux, CDARParser.parse, getText, getTextOptional,
      Xml.findChild, Xml.findAll, Xml.children, Xml.tag, Xml.text,
      pyTruthy, normText_none, normText_some hid, normText_some href,
      normText_some hfne, normText_some hstv, except_bind_ok, hdate,
      hstc, hsender, hrecip, List.filter_map, Function.comp_def, hid, href, hfne, hstv, hrs, hrcs, hams,
      normText_some hrs, normText_some hrcs, normText_some hams]

/-- Witness for the amended C4 at a concrete input: a full message with
two recipients, reason, reason code and amount "9500.00" round-trips
exactly. -/
theorem claim_C4_amended_witness :
    (c4FullMsg.message_id ≠ "" ∧ c4FullMsg.invoice_reference ≠ "" ∧
      c4FullMsg.reason ≠ some "" ∧ c4FullMsg.reason_code ≠ some "" ∧
      c4FullMsg.amount ≠ some "" ∧ 1000 ≤ c4FullMsg.issue_datetime.year ∧
      c4FullMsg.issue_datetime.year ≤ 9999 ∧
      c4FullMsg.issue_datetime.valid) ∧
    cdarRoundtrip c4FullMsg = .ok c4FullMsg :=
  ⟨by decide,
   claim_C4_amended c4FullMsg (by decide) (by decide) (by decide)
     (by decide) (by decide) (by decide) (by decide) (by decide)⟩

end FacturX



